import Mathlib

/-!
Shallow embedding of the Ijoka attribution and tracking engine.

Sources embedded here:
- src/packages/claude-plugin/hooks/scripts/graph_db_helper.py  (namespace-free
  definitions below keep the Python function names, snake_case)
- src/packages/claude-plugin/hooks/scripts/track-event.py
- src/packages/ijoka-cli/src/ijoka/db.py  (namespace Cli)

Modelling conventions:
- The Memgraph graph is a `GraphState` record: node lists plus explicit edge
  lists.  Cypher `CREATE` on an edge appends (duplicates allowed); `MERGE`
  appends only when the pair is absent, matching Cypher semantics.
- `datetime()` is `st.now`; all timestamps are integers in minutes.
- `uuid.uuid4()` results are passed in as explicit `fresh_id` parameters by
  callers, or generated from a deterministic counter where the identifier is
  never read back by the code under study (StatusEvent ids, Step ids).
- Opaque write-only data (the JSON `payload` blob on events, the nudge
  bookkeeping fields `nudges_shown` / `last_nudge_at` on sessions, and the
  `progress.percentage` rounding of `get_plan`) is not modelled: no code path
  relevant to the claims reads it back.
- Python `re.search` on a user-supplied `command_pattern` (completion
  criteria) is modelled as literal substring containment; no claim exercises
  regex patterns.
- Pydantic enum validation is modelled where an invalid literal can actually
  be produced by the code under study: `StepStatus` (see `parse_step_status`).
-/

namespace Ijoka

/-- Substring test on character lists: `needle` occurs inside `hay`. -/
def chars_contains (needle : List Char) : List Char → Bool
  | [] => needle.isEmpty
  | c :: t => needle.isPrefixOf (c :: t) || chars_contains needle t

/-- Python `needle in hay` on strings. -/
def str_contains (hay needle : String) : Bool :=
  chars_contains needle.data hay.data

/-- Python `str.lower` (over the character list; `String.toLower` does not
reduce inside the kernel). -/
def str_lower (s : String) : String :=
  (s.data.map Char.toLower).asString

/-- Completion criteria stored on a Feature (`completion_criteria`). -/
structure Criteria where
  ctype : String
  count : Option Int
  command_pattern : Option String
deriving DecidableEq

/-- Feature node.  `ftype` is the node property `type`. -/
structure Feature where
  fid : String
  project_path : String
  description : String
  category : String
  ftype : Option String
  status : String
  priority : Int
  steps : List String
  branch_hint : Option String
  file_patterns : List String
  work_count : Int
  is_primary : Bool
  is_session_work : Bool
  assigned_agent : Option String
  claiming_session_id : Option String
  claiming_agent : Option String
  claimed_at : Option Int
  completion_criteria : Option Criteria
  parent_id : Option String
  created_at : Int
  updated_at : Int
  completed_at : Option Int
deriving DecidableEq

/-- Session node; `project_path` stands for the `IN_PROJECT` edge. -/
structure Session where
  sid : String
  project_path : String
  agent : String
  status : String
  started_at : Int
  last_activity : Int
  event_count : Int
  is_subagent : Bool
deriving DecidableEq

/-- Event node (the opaque JSON payload is not modelled). -/
structure Event where
  eid : String
  event_type : String
  tool_name : Option String
  timestamp : Int
  source_agent : String
  session_id : String
  success : Bool
  summary : Option String
deriving DecidableEq

/-- Step node; `feature_id` stands for the `BELONGS_TO` edge. -/
structure Step where
  step_id : String
  feature_id : String
  description : String
  status : String
  step_order : Nat
  expected_tools : List String
  created_at : Int
  started_at : Option Int
  completed_at : Option Int
  updated_at : Option Int
deriving DecidableEq

/-- StatusEvent node; `feature_id` stands for the `CHANGED_STATUS` edge,
`triggered_by` is the node property `by`, `at_time` the property `at`. -/
structure StatusEvent where
  seid : String
  feature_id : String
  from_status : String
  to_status : String
  at_time : Int
  triggered_by : String
  session_id : Option String
  reason : Option String
deriving DecidableEq

/-- The whole graph.  Edge lists hold (source-id, target-id) pairs; `linkedTo`
is a multiset because `insert_event` uses Cypher `CREATE` for that edge. -/
structure GraphState where
  projects : List String
  features : List Feature
  sessions : List Session
  events : List Event
  steps : List Step
  statusEvents : List StatusEvent
  linkedTo : List (String × String)
  triggeredBy : List (String × String)
  partOfStep : List (String × String)
  childOf : List (String × String)
  now : Int
deriving DecidableEq

/-- `MATCH (f:Feature {id: $fid})`, first row. -/
def find_feature (st : GraphState) (fid : String) : Option Feature :=
  st.features.find? (fun f => f.fid == fid)

/-- `MATCH (f:Feature {id: $fid}) SET ...`: every matching node is updated. -/
def update_feature (st : GraphState) (fid : String) (g : Feature → Feature) :
    GraphState :=
  { st with features := st.features.map (fun f => if f.fid == fid then g f else f) }

/-- graph_db_helper.get_or_create_project (only existence matters here). -/
def get_or_create_project (st : GraphState) (project_dir : String) : GraphState :=
  if st.projects.contains project_dir then st
  else { st with projects := st.projects ++ [project_dir] }

/-- graph_db_helper.get_feature_claim. -/
def get_feature_claim (st : GraphState) (feature_id : String) :
    Option (String × Option String × Option Int) :=
  match find_feature st feature_id with
  | none => none
  | some f =>
    match f.claiming_session_id with
    | none => none
    | some s => if s == "" then none else some (s, f.claiming_agent, f.claimed_at)

/-- graph_db_helper.is_session_active: the Session node's `last_activity`
within the stale window, with a fallback over recent events. -/
def is_session_active (st : GraphState) (session_id : String)
    (stale_minutes : Int) : Bool :=
  if session_id == "" then false
  else
    let node_active :=
      match st.sessions.find? (fun s => s.sid == session_id) with
      | some s => decide (s.last_activity > st.now - stale_minutes)
      | none => false
    if node_active then true
    else st.events.any (fun e =>
      e.session_id == session_id && decide (e.timestamp > st.now - stale_minutes))

/-- The property writes of graph_db_helper.start_feature. -/
def start_tr (agent : Option String) (session_id : String) (now : Int) :
    Feature → Feature := fun g =>
  { g with status := "in_progress", assigned_agent := agent,
           claiming_session_id := some session_id, claiming_agent := agent,
           claimed_at := some now, updated_at := now }

/-- The write phase of graph_db_helper.start_feature. -/
def start_feature_write (st : GraphState) (feature_id : String)
    (agent : Option String) (session_id : String) : Option Feature × GraphState :=
  match find_feature st feature_id with
  | none => (none, st)
  | some f => (some (start_tr agent session_id st.now f),
               update_feature st feature_id (start_tr agent session_id st.now))

/-- graph_db_helper.start_feature: claim arbitration then write. -/
def start_feature (st : GraphState) (feature_id : String) (agent : Option String)
    (session_id_arg : Option String) (force_override : Bool) :
    Option Feature × GraphState :=
  let session_id :=
    match session_id_arg with
    | some s => if s == "" then "session-" ++ toString st.now else s
    | none => "session-" ++ toString st.now
  match get_feature_claim st feature_id with
  | some c =>
    if c.1 != session_id && is_session_active st c.1 30 && !force_override then
      (none, st)
    else start_feature_write st feature_id agent session_id
  | none => start_feature_write st feature_id agent session_id

/-- The property writes of graph_db_helper.complete_feature. -/
def complete_tr (now : Int) : Feature → Feature := fun g =>
  { g with status := "complete", completed_at := some now,
           updated_at := now, claiming_session_id := none,
           claiming_agent := none, claimed_at := none }

/-- graph_db_helper.complete_feature. -/
def complete_feature (st : GraphState) (feature_id : String) :
    Option Feature × GraphState :=
  match find_feature st feature_id with
  | none => (none, st)
  | some f => (some (complete_tr st.now f),
               update_feature st feature_id (complete_tr st.now))

/-- graph_db_helper.activate_feature. -/
def activate_feature (st : GraphState) (feature_id : String) :
    Bool × GraphState :=
  match find_feature st feature_id with
  | none => (false, st)
  | some _ =>
    (true, update_feature st feature_id
      (fun g => { g with status := "in_progress", updated_at := st.now }))

/-- The property writes of graph_db_helper.increment_work_count. -/
def work_tr (now : Int) : Feature → Feature := fun g =>
  { g with work_count := g.work_count + 1, updated_at := now }

/-- graph_db_helper.increment_work_count. -/
def increment_work_count (st : GraphState) (feature_id : String) :
    Int × GraphState :=
  match find_feature st feature_id with
  | none => (0, st)
  | some f => (f.work_count + 1, update_feature st feature_id (work_tr st.now))

/-- The Feature node written by graph_db_helper.create_feature. -/
def new_feature_record (project_dir fresh_id description category : String)
    (steps : List String) (priority : Int) (status : String)
    (branch_hint : Option String) (file_patterns : List String)
    (work_item_type : String) (now : Int) : Feature :=
  { fid := fresh_id, project_path := project_dir, description := description,
    category := category, ftype := some work_item_type, status := status,
    priority := priority, steps := steps, branch_hint := branch_hint,
    file_patterns := file_patterns, work_count := 0, is_primary := false,
    is_session_work := false, assigned_agent := none,
    claiming_session_id := none, claiming_agent := none, claimed_at := none,
    completion_criteria := none, parent_id := none, created_at := now,
    updated_at := now, completed_at := none }

@[simp] theorem new_feature_record_fid (pd fid d c : String) (st : List String)
    (pr : Int) (s : String) (bh : Option String) (fp : List String)
    (wt : String) (n : Int) :
    (new_feature_record pd fid d c st pr s bh fp wt n).fid = fid := rfl

@[simp] theorem new_feature_record_work_count (pd fid d c : String)
    (st : List String) (pr : Int) (s : String) (bh : Option String)
    (fp : List String) (wt : String) (n : Int) :
    (new_feature_record pd fid d c st pr s bh fp wt n).work_count = 0 := rfl

@[simp] theorem new_feature_record_is_session_work (pd fid d c : String)
    (st : List String) (pr : Int) (s : String) (bh : Option String)
    (fp : List String) (wt : String) (n : Int) :
    (new_feature_record pd fid d c st pr s bh fp wt n).is_session_work =
      false := rfl

@[simp] theorem new_feature_record_claiming (pd fid d c : String)
    (st : List String) (pr : Int) (s : String) (bh : Option String)
    (fp : List String) (wt : String) (n : Int) :
    (new_feature_record pd fid d c st pr s bh fp wt n).claiming_session_id =
      none := rfl

@[simp] theorem new_feature_record_status (pd fid d c : String)
    (st : List String) (pr : Int) (s : String) (bh : Option String)
    (fp : List String) (wt : String) (n : Int) :
    (new_feature_record pd fid d c st pr s bh fp wt n).status = s := rfl

/-- graph_db_helper.create_feature.  The uuid is the `fresh_id` parameter. -/
def create_feature (st : GraphState) (project_dir : String) (fresh_id : String)
    (description : String) (category : String) (steps : List String)
    (priority : Int) (in_progress : Bool) (branch_hint : Option String)
    (file_patterns : List String) (work_item_type : String) :
    String × GraphState :=
  let st := get_or_create_project st project_dir
  let status := if in_progress then "in_progress" else "pending"
  let f : Feature := new_feature_record project_dir fresh_id description
    category steps priority status branch_hint file_patterns work_item_type
    st.now
  (fresh_id, { st with features := st.features ++ [f] })

/-- The fixed Session-Work feature description. -/
def session_work_description : String :=
  "Session Work - Project management and meta activities"

/-- graph_db_helper.get_or_create_session_work_feature.  The created node has
no `type` and no `is_primary` property. -/
def get_or_create_session_work_feature (st : GraphState) (project_dir : String)
    (fresh_id : String) : Feature × GraphState :=
  match st.features.find? (fun f =>
      f.project_path == project_dir && f.description == session_work_description) with
  | some f => (f, st)
  | none =>
    let st := get_or_create_project st project_dir
    let f : Feature :=
      { fid := fresh_id, project_path := project_dir,
        description := session_work_description, category := "infrastructure",
        ftype := none, status := "pending", priority := -1,
        steps := ["Collects meta activities automatically"], branch_hint := none,
        file_patterns := [], work_count := 0, is_primary := false,
        is_session_work := true, assigned_agent := none,
        claiming_session_id := none, claiming_agent := none, claimed_at := none,
        completion_criteria := none, parent_id := none, created_at := st.now,
        updated_at := st.now, completed_at := none }
    (f, { st with features := st.features ++ [f] })

/-- Insertion into a list sorted by `le` (used for Cypher `ORDER BY`). -/
def insert_sorted (le : Feature → Feature → Bool) (f : Feature) :
    List Feature → List Feature
  | [] => [f]
  | g :: t => if le f g then f :: g :: t else g :: insert_sorted le f t

/-- Insertion sort used to model Cypher `ORDER BY` over features. -/
def sort_features (le : Feature → Feature → Bool) : List Feature → List Feature
  | [] => []
  | f :: t => insert_sorted le f (sort_features le t)

/-- `ORDER BY f.priority DESC, f.created_at ASC`. -/
def feature_order (f g : Feature) : Bool :=
  decide (f.priority > g.priority) ||
    (f.priority == g.priority && decide (f.created_at ≤ g.created_at))

/-- graph_db_helper.get_features (the db_helper compat flags `passes`,
`inProgress`, `workCount` are recomputed from `status` where needed). -/
def get_features (st : GraphState) (project_dir : String) : List Feature :=
  sort_features feature_order
    (st.features.filter (fun f => f.project_path == project_dir))

/-- Fold picking the first feature of maximal priority
(`ORDER BY f.priority DESC LIMIT 1`). -/
def pick_max_priority (acc : Option Feature) : List Feature → Option Feature
  | [] => acc
  | f :: t =>
    match acc with
    | none => pick_max_priority (some f) t
    | some g => pick_max_priority (some (if f.priority > g.priority then f else g)) t

/-- graph_db_helper.get_active_feature: the primary in_progress feature, else
the highest-priority in_progress feature. -/
def get_active_feature (st : GraphState) (project_dir : String) :
    Option Feature :=
  match st.features.find? (fun f =>
      f.status == "in_progress" && f.is_primary && f.project_path == project_dir) with
  | some f => some f
  | none =>
    pick_max_priority none
      (st.features.filter (fun f =>
        f.status == "in_progress" && f.project_path == project_dir))

/-- graph_db_helper.create_status_event: appends the audit node and also
materialises the new status on the Feature.  The uuid is generated from a
counter (never read back by the code under study). -/
def create_status_event (st : GraphState) (feature_id : String)
    (from_status to_status : String) (triggered_by : String)
    (session_id : Option String) (reason : Option String) :
    String × GraphState :=
  let seid := "se-" ++ toString st.statusEvents.length
  match find_feature st feature_id with
  | none => (seid, st)
  | some _ =>
    let se : StatusEvent :=
      { seid := seid, feature_id := feature_id, from_status := from_status,
        to_status := to_status, at_time := st.now, triggered_by := triggered_by,
        session_id := session_id, reason := reason }
    (seid,
      update_feature { st with statusEvents := st.statusEvents ++ [se] }
        feature_id (fun g => { g with status := to_status, updated_at := st.now }))

/-- graph_db_helper.auto_transition_to_in_progress. -/
def auto_transition_to_in_progress (st : GraphState) (feature_id : String)
    (triggered_by : String) (session_id : Option String) : Bool × GraphState :=
  match find_feature st feature_id with
  | none => (false, st)
  | some f =>
    if f.status != "pending" then (false, st)
    else if f.is_session_work then (false, st)
    else
      let r := create_status_event st feature_id "pending" "in_progress"
        triggered_by session_id
        (some "Automatically started when first activity was linked")
      (true, r.2)

/-- `MERGE (s:Session {id})-[:IN_PROJECT]->(p)` of insert_event; the pattern
matches on both the id and the project. -/
def merge_session (st : GraphState) (session_id project_dir source_agent : String) :
    GraphState :=
  if st.sessions.any (fun s => s.sid == session_id && s.project_path == project_dir) then
    { st with sessions := st.sessions.map (fun s =>
        if s.sid == session_id && s.project_path == project_dir then
          { s with last_activity := st.now, event_count := s.event_count + 1 }
        else s) }
  else
    { st with sessions := st.sessions ++
        [{ sid := session_id, project_path := project_dir, agent := source_agent,
           status := "active", started_at := st.now, last_activity := st.now,
           event_count := 0, is_subagent := false }] }

/-- `MERGE (e:Event {id}) ON CREATE SET ...` of insert_event. -/
def merge_event (st : GraphState) (e : Event) : GraphState :=
  if st.events.any (fun x => x.eid == e.eid) then st
  else { st with events := st.events ++ [e] }

/-- `MERGE (e)-[:TRIGGERED_BY]->(s)` of insert_event. -/
def merge_triggered_by (st : GraphState) (event_id session_id : String) :
    GraphState :=
  if (event_id, session_id) ∈ st.triggeredBy then st
  else { st with triggeredBy := st.triggeredBy ++ [(event_id, session_id)] }

/-- graph_db_helper.insert_event.  The feature link uses Cypher `CREATE`
(duplicates allowed); the optional step link runs on the rows surviving the
feature `MATCH`, so it is skipped when a requested feature does not exist. -/
def insert_event_base (st : GraphState) (event_type source_agent session_id
    project_dir : String) (tool_name : Option String) (success : Bool)
    (summary : Option String) (event_id : String) : GraphState :=
  let st := get_or_create_project st project_dir
  let st := merge_session st session_id project_dir source_agent
  let st := merge_event st
    { eid := event_id, event_type := event_type, tool_name := tool_name,
      timestamp := st.now, source_agent := source_agent,
      session_id := session_id, success := success, summary := summary }
  merge_triggered_by st event_id session_id

def insert_event (st : GraphState) (event_type source_agent session_id
    project_dir : String) (tool_name : Option String)
    (feature_id : Option String) (step_id : Option String) (success : Bool)
    (summary : Option String) (event_id : String) : String × GraphState :=
  let st := insert_event_base st event_type source_agent session_id
    project_dir tool_name success summary event_id
  let linked :=
    match feature_id with
    | none => (true, st)
    | some fid =>
      if (find_feature st fid).isSome then
        (true, { st with linkedTo := st.linkedTo ++ [(event_id, fid)] })
      else (false, st)
  let st := linked.2
  let st :=
    match step_id with
    | some sp =>
      if linked.1 && st.steps.any (fun s => s.step_id == sp) then
        (if (event_id, sp) ∈ st.partOfStep then st
         else { st with partOfStep := st.partOfStep ++ [(event_id, sp)] })
      else st
    | none => st
  let st :=
    match feature_id with
    | some fid =>
      (auto_transition_to_in_progress st fid
        ("auto:first_activity:" ++ event_id) (some session_id)).2
    | none => st
  (event_id, st)

/-- graph_db_helper.update_session_activity. -/
def update_session_activity (st : GraphState) (session_id : String) :
    GraphState :=
  { st with sessions := st.sessions.map (fun s =>
      if s.sid == session_id then { s with last_activity := st.now } else s) }

/-- graph_db_helper.create_step.  The uuid comes from a counter (never read
back by the code under study); creation needs the Feature to exist but the id
is returned regardless, as in the source. -/
def create_step (st : GraphState) (feature_id : String) (description : String)
    (order : Nat) (status : String) (expected_tools : List String) :
    String × GraphState :=
  let step_id := "step-" ++ toString st.steps.length
  if (find_feature st feature_id).isSome then
    (step_id, { st with steps := st.steps ++
      [{ step_id := step_id, feature_id := feature_id,
         description := description, status := status, step_order := order,
         expected_tools := expected_tools, created_at := st.now,
         started_at := none, completed_at := none, updated_at := none }] })
  else (step_id, st)

/-- Fold picking the first step of minimal `step_order`
(`ORDER BY s.step_order ASC LIMIT 1`). -/
def pick_min_order : Option Step → List Step → Option Step
  | acc, [] => acc
  | none, s :: t => pick_min_order (some s) t
  | some g, s :: t =>
    pick_min_order (some (if s.step_order < g.step_order then s else g)) t

/-- Insertion into a list of steps sorted by `step_order` ascending. -/
def insert_step_sorted (s : Step) : List Step → List Step
  | [] => [s]
  | g :: t => if s.step_order ≤ g.step_order then s :: g :: t
              else g :: insert_step_sorted s t

/-- Steps of a feature sorted by `step_order ASC`
(graph_db_helper.get_steps). -/
def get_steps (st : GraphState) (feature_id : String) : List Step :=
  (st.steps.filter (fun s => s.feature_id == feature_id)).foldr
    insert_step_sorted []

/-- graph_db_helper.get_active_step: in_progress step with lowest order, else
first pending step. -/
def get_active_step (st : GraphState) (feature_id : String) : Option Step :=
  match pick_min_order none (st.steps.filter (fun s =>
      s.feature_id == feature_id && s.status == "in_progress")) with
  | some s => some s
  | none =>
    pick_min_order none (st.steps.filter (fun s =>
      s.feature_id == feature_id && s.status == "pending"))

/-- graph_db_helper.update_step_status (the hook-side variant: a raw property
write, no enum validation). -/
def update_step_status (st : GraphState) (step_id : String) (status : String) :
    GraphState :=
  { st with steps := st.steps.map (fun s =>
      if s.step_id == step_id then
        { s with status := status,
                 started_at := if status == "in_progress" then some st.now
                               else s.started_at,
                 completed_at := if status == "completed" then some st.now
                                 else s.completed_at }
      else s) }

/-- TodoWrite payload entry. -/
structure Todo where
  content : String
  status : String
deriving DecidableEq

/-- Python's `{"pending": "pending", ...}.get(status, "pending")`. -/
def todo_status_map (s : String) : String :=
  if s == "pending" || s == "in_progress" || s == "completed" then s
  else "pending"

/-- One iteration of the sync loop of sync_steps_from_todos. -/
def sync_todo_iter (existing_steps : List Step) (feature_id : String)
    (acc : List String × GraphState) (iv : Nat × Todo) :
    List String × GraphState :=
  let desc := iv.2.content
  let status := todo_status_map iv.2.status
  match (existing_steps.reverse).find? (fun s => s.description == desc) with
  | some s => (acc.1 ++ [s.step_id], update_step_status acc.2 s.step_id status)
  | none =>
    let r := create_step acc.2 feature_id desc iv.1 status []
    (acc.1 ++ [r.1], r.2)

/-- graph_db_helper.sync_steps_from_todos: update matching steps, create the
rest with `step_order = i`, mark steps missing from the todos as skipped.
The python dict `existing_by_desc` keeps the last step per description. -/
def sync_steps_from_todos (st : GraphState) (feature_id : String)
    (todos : List Todo) : List String × GraphState :=
  let existing_steps := get_steps st feature_id
  let r := (todos.enum).foldl (sync_todo_iter existing_steps feature_id) ([], st)
  let current_descs := todos.map (fun t => t.content)
  let st2 := existing_steps.foldl (fun acc s =>
      if current_descs.contains s.description then acc
      else update_step_status acc s.step_id "skipped") r.2
  (r.1, st2)

/-- The work-tool whitelist of reattribute_session_work_events. -/
def work_tool_names : List String :=
  ["Edit", "Write", "Read", "Bash", "Grep", "Glob", "Task",
   "TodoWrite", "TodoRead", "WebSearch", "WebFetch", "NotebookEdit"]

/-- The rows of the reattribution query: one per `LINKED_TO` edge into a
Session-Work feature of the project whose event is a recent work tool. -/
def eligible_rows (st : GraphState) (project_dir : String)
    (lookback_minutes : Int) : List String :=
  st.linkedTo.filterMap (fun p =>
    match st.features.find? (fun f => f.fid == p.2) with
    | none => none
    | some sw =>
      if sw.is_session_work && sw.project_path == project_dir then
        match st.events.find? (fun e => e.eid == p.1) with
        | none => none
        | some e =>
          if decide (e.timestamp > st.now - lookback_minutes) &&
             (match e.tool_name with
              | some t => work_tool_names.contains t
              | none => false) then some p.1
          else none
      else none)

/-- `MERGE (e)-[:LINKED_TO]->(f)` of the reattribution loop. -/
def merge_linked_to (st : GraphState) (event_id feature_id : String) :
    GraphState :=
  if (st.events.any (fun e => e.eid == event_id)) &&
     (find_feature st feature_id).isSome then
    (if (event_id, feature_id) ∈ st.linkedTo then st
     else { st with linkedTo := st.linkedTo ++ [(event_id, feature_id)] })
  else st

/-- The work_count write of reattribute_session_work_events. -/
def reatt_tr (n : Int) (now : Int) : Feature → Feature := fun g =>
  { g with work_count := g.work_count + n, updated_at := now }

/-- graph_db_helper.reattribute_session_work_events: MERGE an extra edge per
row and add the row count to the feature's `work_count`. -/
def reattribute_session_work_events (st : GraphState) (project_dir : String)
    (feature_id : String) (lookback_minutes : Int) : Int × GraphState :=
  let rows := eligible_rows st project_dir lookback_minutes
  if rows.isEmpty then (0, st)
  else
    let st := rows.foldl (fun acc eid => merge_linked_to acc eid feature_id) st
    let st := update_feature st feature_id (reatt_tr (rows.length : Int) st.now)
    ((rows.length : Int), st)

/-- Result record of graph_db_helper.discover_feature. -/
structure DiscoverResult where
  feature_id : String
  description : String
  category : String
  status : String
  reattributed_events : Int
  lookback_minutes : Int
deriving DecidableEq

/-- graph_db_helper.discover_feature: create (in_progress unless
mark_complete), optionally complete, then re-attribute recent Session-Work
events. -/
def discover_feature (st : GraphState) (project_dir : String)
    (fresh_id : String) (description : String) (category : String)
    (steps : List String) (priority : Int) (lookback_minutes : Int)
    (mark_complete : Bool) (branch_hint : Option String)
    (work_item_type : String) : DiscoverResult × GraphState :=
  let r1 := create_feature st project_dir fresh_id description category steps
    priority (!mark_complete) branch_hint [] work_item_type
  let st := r1.2
  let st := if mark_complete then (complete_feature st r1.1).2 else st
  let r2 := reattribute_session_work_events st project_dir r1.1 lookback_minutes
  ({ feature_id := r1.1, description := description, category := category,
     status := if mark_complete then "complete" else "in_progress",
     reattributed_events := r2.1, lookback_minutes := lookback_minutes }, r2.2)

/-!  track-event.py  -/

/-- The `tool_input` dict of a hook event; `raw` stands for Python's
`str(tool_input)` rendering used by the skip filter and the default summary. -/
structure ToolInput where
  command : Option String
  file_path : Option String
  pattern : Option String
  old_string : Option String
  new_string : Option String
  description : Option String
  feature_id_arg : Option String
  todos : List Todo
  run_in_background : Bool
  raw : String
deriving DecidableEq

/-- The `tool_response` dict (only `is_error` feeds the logic under study). -/
structure ToolResult where
  is_error : Bool
deriving DecidableEq

/-- track-event.is_mcp_meta_tool. -/
def is_mcp_meta_tool (tool_name : String) : Bool :=
  tool_name.startsWith "mcp__ijoka__"

/-- track-event.is_diagnostic_command. -/
def is_diagnostic_command (tool_name : String) (ti : ToolInput) : Bool :=
  if is_mcp_meta_tool tool_name then true
  else if tool_name == "Bash" then
    let cmd := str_lower (ti.command.getD "")
    if str_contains cmd "ijoka" && str_contains cmd "sqlite3" then true
    else if ([".ijoka", "session_state", "sessions", "features"].any
          (fun x => str_contains cmd x)) && str_contains cmd "select" then true
    else if str_contains cmd "hook" &&
        (["cat", "tail", "head", "grep"].any (fun x => str_contains cmd x)) then
      true
    else false
  else if tool_name == "Read" then
    let fp := str_lower (ti.file_path.getD "")
    str_contains fp ".ijoka" || str_contains fp "hook"
  else false

/-- track-event.summarize_input. -/
def summarize_input (tool_name : String) (ti : ToolInput) : String :=
  if tool_name == "Read" then "Read: " ++ ti.file_path.getD "unknown"
  else if tool_name == "Write" then "Write: " ++ ti.file_path.getD "unknown"
  else if tool_name == "Edit" then "Edit: " ++ ti.file_path.getD "unknown"
  else if tool_name == "Bash" then
    let cmd := ti.command.getD ""
    if cmd.length > 60 then "Bash: " ++ cmd.take 60 ++ "..." else "Bash: " ++ cmd
  else if tool_name == "Glob" then "Glob: " ++ ti.pattern.getD "unknown"
  else if tool_name == "Grep" then "Grep: " ++ ti.pattern.getD "unknown"
  else if tool_name == "Task" then "Task: " ++ ti.description.getD "unknown"
  else if is_mcp_meta_tool tool_name then
    let action := tool_name.replace "mcp__ijoka__" ""
    match ti.description with
    | some d => "ijoka." ++ action ++ ": " ++ d.take 50
    | none =>
      match ti.feature_id_arg with
      | some f => "ijoka." ++ action ++ ": " ++ f
      | none => "ijoka." ++ action
  else tool_name ++ ": " ++ ti.raw.take 60

/-- track-event.check_completion_criteria; `re.search(command_pattern, cmd)`
is modelled as literal substring containment. -/
def check_completion_criteria (f : Feature) (tool_name : String)
    (ti : ToolInput) (tr : ToolResult) : Bool × String :=
  let ctype := match f.completion_criteria with
    | some c => c.ctype
    | none => "manual"
  if tr.is_error then (false, "")
  else if ctype == "build" then
    if tool_name == "Bash" then
      let cmd := str_lower (ti.command.getD "")
      let pat := match f.completion_criteria with
        | some c => c.command_pattern.getD ""
        | none => ""
      if pat != "" then
        if str_contains cmd pat then (true, "Build passed") else (false, "")
      else if ["build", "compile", "cargo build", "pnpm build",
          "npm run build"].any (fun k => str_contains cmd k) then
        (true, "Build passed")
      else (false, "")
    else (false, "")
  else if ctype == "test" then
    if tool_name == "Bash" then
      let cmd := str_lower (ti.command.getD "")
      if ["test", "pytest", "jest", "vitest", "cargo test"].any
          (fun k => str_contains cmd k) then (true, "Tests passed")
      else (false, "")
    else (false, "")
  else if ctype == "lint" then
    if tool_name == "Bash" then
      let cmd := str_lower (ti.command.getD "")
      if ["lint", "eslint", "prettier", "clippy"].any
          (fun k => str_contains cmd k) then (true, "Lint passed")
      else (false, "")
    else (false, "")
  else if ctype == "any_success" then
    if tool_name == "Edit" || tool_name == "Write" || tool_name == "Bash" then
      (true, "Work completed")
    else (false, "")
  else (false, "")

/-- track-event._activate_next_feature. -/
def activate_next_feature (st : GraphState) (project_dir : String) :
    Option String × GraphState :=
  match (get_features st project_dir).find? (fun f =>
      !(f.status == "complete") && !(f.status == "in_progress")) with
  | some f => (some f.fid, (activate_feature st f.fid).2)
  | none => (none, st)

/-- track-event.maybe_auto_complete.  `passes` is the compat flag of the
feature dict handed in by the caller. -/
def maybe_auto_complete (st : GraphState) (project_dir : String)
    (active_feature : Option Feature) (passes : Bool) (tool_name : String)
    (ti : ToolInput) (tr : ToolResult) : Option String × GraphState :=
  match active_feature with
  | none => (none, st)
  | some f =>
    if passes then (none, st)
    else
      let is_work_tool := tool_name == "Edit" || tool_name == "Write" ||
        tool_name == "Bash" || tool_name == "Task"
      let wc_branch :=
        if is_work_tool && !tr.is_error then
          let r := increment_work_count st f.fid
          match f.completion_criteria with
          | some c =>
            if c.ctype == "work_count" then
              let threshold := c.count.getD 3
              if r.1 ≥ threshold then
                let st2 := (complete_feature r.2 f.fid).2
                let st3 := (activate_next_feature st2 project_dir).2
                (some ("Auto-completed (work count: " ++ toString r.1 ++ ")"), st3)
              else (none, r.2)
            else (none, r.2)
          | none => (none, r.2)
        else (none, st)
      match wc_branch.1 with
      | some msg => (some msg, wc_branch.2)
      | none =>
        let chk := check_completion_criteria f tool_name ti tr
        if chk.1 then
          let st2 := (complete_feature wc_branch.2 f.fid).2
          let st3 := (activate_next_feature st2 project_dir).2
          (some ("Auto-completed: " ++ chk.2), st3)
        else (none, wc_branch.2)

/-- The self-tracking filter of handle_post_tool_use
(`"track-event.py" in str(tool_input) or "db_helper" in str(tool_input)`). -/
def skip_tracking (ti : ToolInput) : Bool :=
  str_contains ti.raw "track-event.py" || str_contains ti.raw "db_helper"

/-- The attribution branch of handle_post_tool_use: meta tools go to the
Session-Work feature, diagnostics to no feature, everything else to
get_active_feature. -/
def selected_feature (st : GraphState) (tool_name : String) (ti : ToolInput)
    (project_dir : String) (fresh_sw_id : String) :
    Option Feature × GraphState :=
  if is_mcp_meta_tool tool_name then
    let r := get_or_create_session_work_feature st project_dir fresh_sw_id
    (some r.1, r.2)
  else if is_diagnostic_command tool_name ti then (none, st)
  else (get_active_feature st project_dir, st)

/-- track-event.handle_todowrite (the PlanUpdate event id is a uuid, passed
as `fresh_event_id`). -/
def handle_todowrite (st : GraphState) (ti : ToolInput)
    (project_dir session_id fresh_event_id : String) : GraphState :=
  if ti.todos.isEmpty then st
  else
    match get_active_feature st project_dir with
    | none => st
    | some f =>
      let r := sync_steps_from_todos st f.fid ti.todos
      let completed := (ti.todos.filter (fun t => t.status == "completed")).length
      let in_prog := (ti.todos.filter (fun t => t.status == "in_progress")).length
      let summary := "Plan updated: " ++ toString completed ++ "/" ++
        toString ti.todos.length ++ " complete, " ++ toString in_prog ++
        " in progress"
      (insert_event r.2 "PlanUpdate" "claude-code" session_id project_dir
        (some "TodoWrite") (some f.fid) none true (some summary)
        fresh_event_id).2

/-- track-event.handle_post_tool_use.  `tool_use_id` is the deduplicating
event id; `fresh_sw_id` the uuid for a Session-Work feature created on the
meta path; `fresh_event_id` the uuid for the PlanUpdate or FeatureCompleted
event.  Nudge bookkeeping (session `nudges_shown`) is not modelled. -/
def handle_post_tool_use (st : GraphState) (tool_name : String)
    (ti : ToolInput) (tr : ToolResult)
    (tool_use_id fresh_sw_id fresh_event_id : String)
    (project_dir session_id : String) : GraphState :=
  if tool_name == "TodoWrite" then
    handle_todowrite st ti project_dir session_id fresh_event_id
  else if skip_tracking ti then st
  else
    let sel := selected_feature st tool_name ti project_dir fresh_sw_id
    let active_feature := sel.1
    let st := sel.2
    let is_diag := is_diagnostic_command tool_name ti
    let is_meta := is_mcp_meta_tool tool_name
    let feature_id := active_feature.map (fun f => f.fid)
    let step_id :=
      match active_feature with
      | some f => if !is_diag then (get_active_step st f.fid).map
                    (fun s => s.step_id)
                  else none
      | none => none
    let st := (insert_event st "ToolCall" "claude-code" session_id project_dir
      (some tool_name) feature_id step_id (!tr.is_error)
      (some (summarize_input tool_name ti)) tool_use_id).2
    let st := update_session_activity st session_id
    let passes :=
      if is_meta then false
      else match active_feature with
        | some f => f.status == "complete"
        | none => false
    let mac := maybe_auto_complete st project_dir active_feature passes
      tool_name ti tr
    let st := mac.2
    match mac.1 with
    | some msg =>
      (insert_event st "FeatureCompleted" "claude-code" session_id project_dir
        none feature_id none true (some ("Feature completed: " ++ msg))
        fresh_event_id).2
    | none => st

/-!  ijoka-cli db.py: the `IjokaClient` methods used by the claims.  Raised
exceptions (`ValueError`, pydantic validation errors) are modelled as
`Except.error`; a write that has already executed when the exception is
raised stays in the returned state, as in the source. -/

/-- models.StepStatus: the values accepted by the pydantic enum. -/
def parse_step_status (s : String) : Option String :=
  if s == "pending" || s == "in_progress" || s == "completed" || s == "skipped"
  then some s else none

namespace Cli

/-- IjokaClient.create_feature: always created with status `pending`; an
optional parent gets a CHILD_OF edge. -/
def create_feature (st : GraphState) (project_path : String) (fresh_id : String)
    (description : String) (category : String) (priority : Int)
    (steps : List String) (branch_hint : Option String)
    (file_patterns : List String) (work_item_type : String)
    (parent_id : Option String) : Feature × GraphState :=
  let st := get_or_create_project st project_path
  let f : Feature :=
    { fid := fresh_id, project_path := project_path, description := description,
      category := category, ftype := some work_item_type, status := "pending",
      priority := priority, steps := steps, branch_hint := branch_hint,
      file_patterns := file_patterns, work_count := 0, is_primary := false,
      is_session_work := false, assigned_agent := none,
      claiming_session_id := none, claiming_agent := none, claimed_at := none,
      completion_criteria := none, parent_id := parent_id, created_at := st.now,
      updated_at := st.now, completed_at := none }
  let st := { st with features := st.features ++ [f] }
  let st :=
    match parent_id with
    | some p =>
      if (find_feature st p).isSome then
        { st with childOf := st.childOf ++ [(fresh_id, p)] }
      else st
    | none => st
  (f, st)

/-- IjokaClient.start_feature: the CLI variant performs no claim arbitration;
it overwrites the claim triple with a fresh cli session id. -/
def start_feature (st : GraphState) (feature_id : String) (agent : String) :
    Except String Feature × GraphState :=
  let session_id := "cli-" ++ toString st.now
  let tr := fun (g : Feature) =>
    { g with status := "in_progress", assigned_agent := some agent,
             claiming_session_id := some session_id,
             claiming_agent := some agent, claimed_at := some st.now,
             updated_at := st.now }
  match find_feature st feature_id with
  | none => (Except.error ("Feature not found: " ++ feature_id), st)
  | some f => (Except.ok (tr f), update_feature st feature_id tr)

/-- IjokaClient.complete_feature (feature id supplied). -/
def complete_feature (st : GraphState) (feature_id : String) :
    Except String Feature × GraphState :=
  let tr := fun (g : Feature) =>
    { g with status := "complete", completed_at := some st.now,
             updated_at := st.now, claiming_session_id := none,
             claiming_agent := none, claimed_at := none }
  match find_feature st feature_id with
  | none => (Except.error ("Feature not found: " ++ feature_id), st)
  | some f => (Except.ok (tr f), update_feature st feature_id tr)

/-- The creation loop of IjokaClient.set_plan. -/
def create_plan_steps (feature_id : String) : GraphState → List (Nat × String) →
    List Step × GraphState
  | st, [] => ([], st)
  | st, (idx, description) :: rest =>
    let s : Step :=
      { step_id := "cstep-" ++ toString st.steps.length,
        feature_id := feature_id, description := description,
        status := "pending", step_order := idx, expected_tools := [],
        created_at := st.now, started_at := none, completed_at := none,
        updated_at := some st.now }
    let r := create_plan_steps feature_id { st with steps := st.steps ++ [s] } rest
    (s :: r.1, r.2)

/-- IjokaClient.set_plan: delete the feature's steps, then create the new
ordered list with `step_order = idx`.  On a missing feature the delete
matches nothing and the first create raises. -/
def set_plan (st : GraphState) (feature_id : String) (steps : List String) :
    Except String (List Step) × GraphState :=
  if (find_feature st feature_id).isSome then
    let st :=
      { st with steps := st.steps.filter (fun s => !(s.feature_id == feature_id)) }
    let r := create_plan_steps feature_id st steps.enum
    (Except.ok r.1, r.2)
  else if steps.isEmpty then (Except.ok [], st)
  else (Except.error ("Feature not found: " ++ feature_id), st)

/-- IjokaClient.get_plan: ordered steps with pydantic StepStatus parsing; the
last in_progress step in order wins as `active_step`. -/
def get_plan (st : GraphState) (feature_id : String) :
    Except String (List Step × Option Step × Nat) :=
  let sorted := get_steps st feature_id
  if sorted.all (fun s => (parse_step_status s.status).isSome) then
    Except.ok (sorted,
      (sorted.filter (fun s => s.status == "in_progress")).getLast?,
      (sorted.filter (fun s => s.status == "completed")).length)
  else Except.error "invalid StepStatus"

/-- IjokaClient.get_active_step: only an in_progress step counts (no pending
fallback), first match. -/
def get_active_step (st : GraphState) (feature_id : String) : Option Step :=
  st.steps.find? (fun s =>
    s.feature_id == feature_id && s.status == "in_progress")

/-- IjokaClient.update_step_status: the status string is written as-is (with
`completed_at` stamped for "complete"/"completed"); building the pydantic
Step model then raises on any status outside the StepStatus enum, after the
write has already been committed. -/
def update_step_status (st : GraphState) (step_id : String) (status : String) :
    Except String Step × GraphState :=
  match st.steps.find? (fun s => s.step_id == step_id) with
  | none => (Except.error ("Step not found: " ++ step_id), st)
  | some s =>
    let s' :=
      { s with status := status, updated_at := some st.now,
               completed_at := if status == "complete" || status == "completed"
                               then some st.now else s.completed_at }
    let st' :=
      { st with steps := st.steps.map (fun t =>
          if t.step_id == step_id then s' else t) }
    match parse_step_status status with
    | some _ => (Except.ok s', st')
    | none =>
      (Except.error ("'" ++ status ++ "' is not a valid StepStatus"), st')

/-- The step-completion branch of IjokaClient.checkpoint. -/
def checkpoint_complete_step (st : GraphState) (fid : String) (stp : Step) :
    Except String Unit × GraphState :=
  let r1 := update_step_status st stp.step_id "complete"
  match r1.1 with
  | Except.error e => (Except.error e, r1.2)
  | Except.ok _ =>
    match get_plan r1.2 fid with
    | Except.error e => (Except.error e, r1.2)
    | Except.ok plan =>
      match plan.1.find? (fun s => s.status == "pending") with
      | some np =>
        let r2 := update_step_status r1.2 np.step_id "in_progress"
        match r2.1 with
        | Except.error e => (Except.error e, r2.2)
        | Except.ok _ => (Except.ok (), r2.2)
      | none => (Except.ok (), r1.2)

/-- The word sets of the checkpoint drift check (split on blanks, drop the
hard-coded common words). -/
def drift_words (text : String) : List String :=
  (((str_lower text).splitOn " ").filter (fun w => !(w == ""))).filter (fun w =>
    !(["the", "a", "an", "and", "or", "but", "in", "on", "at", "to",
       "for"].contains w))

/-- IjokaClient.checkpoint: complete the active step on a substring match,
activate the next pending step, then run the drift check against the
previously active step. -/
def checkpoint (st : GraphState) (project_dir : String)
    (feature_id : Option String) (step_completed : Option String)
    (current_activity : Option String) :
    Except String (List String) × GraphState :=
  let active_feature :=
    match feature_id with
    | some fid => find_feature st fid
    | none => get_active_feature st project_dir
  match active_feature with
  | none => (Except.ok ["No active feature - checkpoint ignored"], st)
  | some f =>
    let active_step := get_active_step st f.fid
    let r1 : Except String Unit × GraphState :=
      match step_completed, active_step with
      | some sc, some stp =>
        if str_contains (str_lower stp.description) (str_lower sc) then
          checkpoint_complete_step st f.fid stp
        else (Except.ok (), st)
      | _, _ => (Except.ok (), st)
    match r1.1 with
    | Except.error e => (Except.error e, r1.2)
    | Except.ok _ =>
      let warnings :=
        match current_activity, active_step with
        | some ca, some stp =>
          let aw := drift_words ca
          let sw := drift_words stp.description
          if (aw.all (fun w => !(sw.contains w))) && !aw.isEmpty && !sw.isEmpty
          then ["Potential drift: working on '" ++ ca ++
                "' but active step is '" ++ stp.description ++ "'"]
          else []
        | _, _ => []
      (Except.ok warnings, r1.2)

/-- Reachable strict ancestors along CHILD_OF edges, fuel-bounded (the fuel
`edges.length` bounds every edge-distinct Cypher path). -/
def ancestor_ids (edges : List (String × String)) : Nat → String → List String
  | 0, _ => []
  | n + 1, x =>
    ((edges.filter (fun p => p.1 == x)).map (fun p => p.2)).flatMap
      (fun y => y :: ancestor_ids edges n y)

/-- IjokaClient.get_ancestors: ancestor Feature nodes of a feature (ids). -/
def get_ancestors (st : GraphState) (feature_id : String) : List String :=
  if (find_feature st feature_id).isSome then
    (ancestor_ids st.childOf st.childOf.length feature_id).filter
      (fun a => (find_feature st a).isSome)
  else []

/-- IjokaClient.link_to_parent: reject self-parent, reject when the child is
an ancestor of the proposed parent, else delete the child's old CHILD_OF
edges and create the new one (one create per matched old row, at least
one). -/
def link_to_parent (st : GraphState) (feature_id parent_id : String) :
    Except String Feature × GraphState :=
  if feature_id == parent_id then
    (Except.error "Feature cannot be its own parent", st)
  else if (get_ancestors st parent_id).contains feature_id then
    (Except.error
      "Circular dependency: feature is already an ancestor of proposed parent",
      st)
  else
    match find_feature st feature_id, find_feature st parent_id with
    | some child, some _ =>
      let olds := st.childOf.filter (fun p => p.1 == feature_id)
      let rows := max 1 olds.length
      let st :=
        { st with childOf :=
            (st.childOf.filter (fun p => !(p.1 == feature_id))) ++
              List.replicate rows (feature_id, parent_id) }
      let st := update_feature st feature_id
        (fun g => { g with parent_id := some parent_id })
      (Except.ok { child with parent_id := some parent_id }, st)
    | _, _ => (Except.error "Feature or parent not found", st)

/-- IjokaClient.discover_feature: create, optionally plan, then complete or
start; no re-attribution is performed and the returned count is always 0. -/
def discover_feature (st : GraphState) (project_path : String)
    (fresh_id : String) (description : String) (category : String)
    (priority : Int) (steps : List String) (lookback_minutes : Int)
    (mark_complete : Bool) (work_item_type : String) :
    Except String (Feature × Int) × GraphState :=
  let r1 := create_feature st project_path fresh_id description category
    priority steps none [] work_item_type none
  let st := r1.2
  let planned :=
    if steps.isEmpty then (Except.ok [], st)
    else set_plan st r1.1.fid steps
  match planned.1 with
  | Except.error e => (Except.error e, planned.2)
  | Except.ok _ =>
    let st := planned.2
    if mark_complete then
      let r2 := complete_feature st r1.1.fid
      match r2.1 with
      | Except.error e => (Except.error e, r2.2)
      | Except.ok f => (Except.ok (f, 0), r2.2)
    else
      let r2 := start_feature st r1.1.fid "cli"
      match r2.1 with
      | Except.error e => (Except.error e, r2.2)
      | Except.ok f =>
        let st := r2.2
        if steps.isEmpty then (Except.ok (f, 0), st)
        else
          match get_plan st r1.1.fid with
          | Except.error e => (Except.error e, st)
          | Except.ok plan =>
            match plan.1 with
            | [] => (Except.ok (f, 0), st)
            | s0 :: _ =>
              let r3 := update_step_status st s0.step_id "in_progress"
              match r3.1 with
              | Except.error e => (Except.error e, r3.2)
              | Except.ok _ => (Except.ok (f, 0), r3.2)

end Cli

/-!  Lemma kit: which state components each operation leaves untouched, and
how `find_feature` interacts with `update_feature`.  -/

@[simp] theorem get_or_create_project_features (st : GraphState) (p : String) :
    (get_or_create_project st p).features = st.features := by
  unfold get_or_create_project; split <;> rfl

@[simp] theorem get_or_create_project_linkedTo (st : GraphState) (p : String) :
    (get_or_create_project st p).linkedTo = st.linkedTo := by
  unfold get_or_create_project; split <;> rfl

@[simp] theorem get_or_create_project_statusEvents (st : GraphState) (p : String) :
    (get_or_create_project st p).statusEvents = st.statusEvents := by
  unfold get_or_create_project; split <;> rfl

@[simp] theorem get_or_create_project_steps (st : GraphState) (p : String) :
    (get_or_create_project st p).steps = st.steps := by
  unfold get_or_create_project; split <;> rfl

@[simp] theorem get_or_create_project_events (st : GraphState) (p : String) :
    (get_or_create_project st p).events = st.events := by
  unfold get_or_create_project; split <;> rfl

@[simp] theorem get_or_create_project_now (st : GraphState) (p : String) :
    (get_or_create_project st p).now = st.now := by
  unfold get_or_create_project; split <;> rfl

@[simp] theorem merge_session_features (st : GraphState) (a b c : String) :
    (merge_session st a b c).features = st.features := by
  unfold merge_session; split <;> rfl

@[simp] theorem merge_session_linkedTo (st : GraphState) (a b c : String) :
    (merge_session st a b c).linkedTo = st.linkedTo := by
  unfold merge_session; split <;> rfl

@[simp] theorem merge_session_statusEvents (st : GraphState) (a b c : String) :
    (merge_session st a b c).statusEvents = st.statusEvents := by
  unfold merge_session; split <;> rfl

@[simp] theorem merge_session_steps (st : GraphState) (a b c : String) :
    (merge_session st a b c).steps = st.steps := by
  unfold merge_session; split <;> rfl

@[simp] theorem merge_session_events (st : GraphState) (a b c : String) :
    (merge_session st a b c).events = st.events := by
  unfold merge_session; split <;> rfl

@[simp] theorem merge_session_now (st : GraphState) (a b c : String) :
    (merge_session st a b c).now = st.now := by
  unfold merge_session; split <;> rfl

@[simp] theorem merge_event_features (st : GraphState) (e : Event) :
    (merge_event st e).features = st.features := by
  unfold merge_event; split <;> rfl

@[simp] theorem merge_event_linkedTo (st : GraphState) (e : Event) :
    (merge_event st e).linkedTo = st.linkedTo := by
  unfold merge_event; split <;> rfl

@[simp] theorem merge_event_statusEvents (st : GraphState) (e : Event) :
    (merge_event st e).statusEvents = st.statusEvents := by
  unfold merge_event; split <;> rfl

@[simp] theorem merge_event_steps (st : GraphState) (e : Event) :
    (merge_event st e).steps = st.steps := by
  unfold merge_event; split <;> rfl

@[simp] theorem merge_event_now (st : GraphState) (e : Event) :
    (merge_event st e).now = st.now := by
  unfold merge_event; split <;> rfl

@[simp] theorem merge_triggered_by_features (st : GraphState) (a b : String) :
    (merge_triggered_by st a b).features = st.features := by
  unfold merge_triggered_by; split <;> rfl

@[simp] theorem merge_triggered_by_linkedTo (st : GraphState) (a b : String) :
    (merge_triggered_by st a b).linkedTo = st.linkedTo := by
  unfold merge_triggered_by; split <;> rfl

@[simp] theorem merge_triggered_by_statusEvents (st : GraphState) (a b : String) :
    (merge_triggered_by st a b).statusEvents = st.statusEvents := by
  unfold merge_triggered_by; split <;> rfl

@[simp] theorem merge_triggered_by_steps (st : GraphState) (a b : String) :
    (merge_triggered_by st a b).steps = st.steps := by
  unfold merge_triggered_by; split <;> rfl

@[simp] theorem merge_triggered_by_events (st : GraphState) (a b : String) :
    (merge_triggered_by st a b).events = st.events := by
  unfold merge_triggered_by; split <;> rfl

@[simp] theorem merge_triggered_by_now (st : GraphState) (a b : String) :
    (merge_triggered_by st a b).now = st.now := by
  unfold merge_triggered_by; split <;> rfl

@[simp] theorem update_session_activity_features (st : GraphState) (a : String) :
    (update_session_activity st a).features = st.features := rfl

@[simp] theorem update_session_activity_linkedTo (st : GraphState) (a : String) :
    (update_session_activity st a).linkedTo = st.linkedTo := rfl

@[simp] theorem update_session_activity_statusEvents (st : GraphState)
    (a : String) :
    (update_session_activity st a).statusEvents = st.statusEvents := rfl

@[simp] theorem update_session_activity_steps (st : GraphState) (a : String) :
    (update_session_activity st a).steps = st.steps := rfl

@[simp] theorem update_session_activity_events (st : GraphState) (a : String) :
    (update_session_activity st a).events = st.events := rfl

@[simp] theorem update_session_activity_now (st : GraphState) (a : String) :
    (update_session_activity st a).now = st.now := rfl

@[simp] theorem update_feature_linkedTo (st : GraphState) (fid : String)
    (g : Feature → Feature) :
    (update_feature st fid g).linkedTo = st.linkedTo := rfl

@[simp] theorem update_feature_statusEvents (st : GraphState) (fid : String)
    (g : Feature → Feature) :
    (update_feature st fid g).statusEvents = st.statusEvents := rfl

@[simp] theorem update_feature_steps (st : GraphState) (fid : String)
    (g : Feature → Feature) :
    (update_feature st fid g).steps = st.steps := rfl

@[simp] theorem update_feature_events (st : GraphState) (fid : String)
    (g : Feature → Feature) :
    (update_feature st fid g).events = st.events := rfl

@[simp] theorem update_feature_sessions (st : GraphState) (fid : String)
    (g : Feature → Feature) :
    (update_feature st fid g).sessions = st.sessions := rfl

@[simp] theorem update_feature_now (st : GraphState) (fid : String)
    (g : Feature → Feature) :
    (update_feature st fid g).now = st.now := rfl

theorem find_feature_congr {s1 s2 : GraphState} (fid : String)
    (h : s1.features = s2.features) :
    find_feature s1 fid = find_feature s2 fid := by
  unfold find_feature; rw [h]

theorem list_find_update (l : List Feature) (fid : String)
    (g : Feature → Feature) (hg : ∀ f, (g f).fid = f.fid) :
    (l.map fun f => if f.fid == fid then g f else f).find?
        (fun f => f.fid == fid) =
      (l.find? (fun f => f.fid == fid)).map g := by
  have hpres : ∀ x : Feature, (if x.fid == fid then g x else x).fid = x.fid := by
    intro x; by_cases h : x.fid = fid
    · simp [h, hg]
    · simp [h]
  have hcong : ((fun f => f.fid == fid) ∘
      fun f => if f.fid == fid then g f else f) = fun f => f.fid == fid := by
    funext x
    simp only [Function.comp_apply, hpres]
  rw [List.find?_map, hcong]
  cases hfind : l.find? (fun f => f.fid == fid) with
  | none => rfl
  | some x =>
    have hx0 := List.find?_some hfind
    have hx : (x.fid == fid) = true := hx0
    show some (if x.fid == fid then g x else x) = some (g x)
    rw [if_pos hx]

theorem list_find_update_ne (l : List Feature) (fid fid' : String)
    (g : Feature → Feature) (hg : ∀ f, (g f).fid = f.fid)
    (hne : fid' ≠ fid) :
    (l.map fun f => if f.fid == fid then g f else f).find?
        (fun f => f.fid == fid') =
      l.find? (fun f => f.fid == fid') := by
  have hpres : ∀ x : Feature, (if x.fid == fid then g x else x).fid = x.fid := by
    intro x; by_cases h : x.fid = fid
    · simp [h, hg]
    · simp [h]
  have hcong : ((fun f => f.fid == fid') ∘
      fun f => if f.fid == fid then g f else f) = fun f => f.fid == fid' := by
    funext x
    simp only [Function.comp_apply, hpres]
  rw [List.find?_map, hcong]
  cases hfind : l.find? (fun f => f.fid == fid') with
  | none => rfl
  | some x =>
    have hx0 := List.find?_some hfind
    have hx : (x.fid == fid') = true := hx0
    have hxeq : x.fid = fid' := beq_iff_eq.mp hx
    have hxne : (x.fid == fid) = false := by
      apply beq_eq_false_iff_ne.mpr
      rw [hxeq]; exact hne
    have hnc : ¬ ((x.fid == fid) = true) := by
      rw [hxne]; exact Bool.false_ne_true
    show some (if x.fid == fid then g x else x) = some x
    rw [if_neg hnc]

theorem find_feature_update_feature (st : GraphState) (fid : String)
    (g : Feature → Feature) (hg : ∀ f, (g f).fid = f.fid) :
    find_feature (update_feature st fid g) fid =
      (find_feature st fid).map g := by
  unfold find_feature update_feature
  exact list_find_update st.features fid g hg

theorem find_feature_update_feature_ne (st : GraphState) (fid fid' : String)
    (g : Feature → Feature) (hg : ∀ f, (g f).fid = f.fid)
    (hne : fid' ≠ fid) :
    find_feature (update_feature st fid g) fid' = find_feature st fid' := by
  unfold find_feature update_feature
  exact list_find_update_ne st.features fid fid' g hg hne

theorem list_find_append_none {α : Type} (l l' : List α) (p : α → Bool)
    (h : l.find? p = none) : (l ++ l').find? p = l'.find? p := by
  induction l with
  | nil => rfl
  | cons x t ih =>
    rw [List.find?_cons] at h
    cases hx : p x with
    | true => rw [hx] at h; exact absurd h (by simp)
    | false =>
      rw [hx] at h
      simp only [List.cons_append, List.find?_cons, hx]
      exact ih h

theorem list_find_append_some {α : Type} (l l' : List α) (p : α → Bool)
    {x : α} (h : l.find? p = some x) : (l ++ l').find? p = some x := by
  induction l with
  | nil => exact absurd h (by simp)
  | cons y t ih =>
    rw [List.find?_cons] at h
    cases hy : p y with
    | true => rw [hy] at h; simpa [List.find?_cons, hy] using h
    | false =>
      rw [hy] at h
      simp only [List.cons_append, List.find?_cons, hy]
      exact ih h

/-!  Concrete states used by counterexamples and witnesses.  Times are in
minutes; `now = 1000` and the stale threshold is 30. -/

/-- A plain feature template; concrete states override the relevant fields. -/
def base_feature : Feature :=
  { fid := "F", project_path := "/p", description := "demo feature",
    category := "functional", ftype := some "feature", status := "pending",
    priority := 0, steps := [], branch_hint := none, file_patterns := [],
    work_count := 0, is_primary := false, is_session_work := false,
    assigned_agent := none, claiming_session_id := none, claiming_agent := none,
    claimed_at := none, completion_criteria := none, parent_id := none,
    created_at := 900, updated_at := 900, completed_at := none }

/-- A session with recent activity (last_activity 995, now 1000). -/
def base_session : Session :=
  { sid := "S1", project_path := "/p", agent := "claude-code",
    status := "active", started_at := 900, last_activity := 995,
    event_count := 0, is_subagent := false }

/-- The empty project graph. -/
def empty_state : GraphState :=
  { projects := ["/p"], features := [], sessions := [], events := [],
    steps := [], statusEvents := [], linkedTo := [], triggeredBy := [],
    partOfStep := [], childOf := [], now := 1000 }

/-- A tool_input with every field absent. -/
def ti_empty : ToolInput :=
  { command := none, file_path := none, pattern := none, old_string := none,
    new_string := none, description := none, feature_id_arg := none,
    todos := [], run_in_background := false, raw := "" }

/-- tool_input of an `Edit` on /p/README.md. -/
def ti_edit : ToolInput :=
  { ti_empty with file_path := some "/p/README.md",
                  raw := "file_path: /p/README.md" }

/-- tool_input of a `Read` of a source file. -/
def ti_read_src : ToolInput :=
  { ti_empty with file_path := some "/p/src/main.rs",
                  raw := "file_path: /p/src/main.rs" }

/-- A successful tool_response. -/
def tool_ok : ToolResult := { is_error := false }

/-- C2 scenario: one active session, no features at all. -/
def st_c2 : GraphState := { empty_state with sessions := [base_session] }

/-- C3 scenario: one in_progress feature, nothing else. -/
def st_c3 : GraphState :=
  { empty_state with
      features := [{ base_feature with fid := "F", status := "in_progress" }] }

/-- First delivery of the Edit event E1 linked to feature F. -/
def c3_first : GraphState :=
  (insert_event st_c3 "ToolCall" "claude-code" "S1" "/p" (some "Edit")
    (some "F") none true none "E1").2

/-- Re-delivery of the identical event (same deterministic id E1). -/
def c3_second : GraphState :=
  (insert_event c3_first "ToolCall" "claude-code" "S1" "/p" (some "Edit")
    (some "F") none true none "E1").2

/-- C4 pipeline: create(pending) → start → complete. -/
def c4_created : GraphState :=
  (create_feature empty_state "/p" "F4" "demo" "functional" [] 0 false none []
    "feature").2

def c4_started : GraphState :=
  (start_feature c4_created "F4" (some "A1") (some "S1") false).2

def c4_final : GraphState := (complete_feature c4_started "F4").2

/-- The Session-Work feature of project /p (as created by the source). -/
def sw_feature : Feature :=
  { base_feature with fid := "SW", description := session_work_description,
                      category := "infrastructure", ftype := none,
                      priority := -1, is_session_work := true,
                      steps := ["Collects meta activities automatically"] }

/-- A recent successful Edit event of session S1. -/
def edit_event : Event :=
  { eid := "E1", event_type := "ToolCall", tool_name := some "Edit",
    timestamp := 995, source_agent := "claude-code", session_id := "S1",
    success := true, summary := some "Edit: /p/README.md" }

/-- C5 scenario: Session-Work feature holding one recent work-tool event. -/
def st_c5 : GraphState :=
  { empty_state with features := [sw_feature], sessions := [base_session],
                     events := [edit_event], linkedTo := [("E1", "SW")],
                     triggeredBy := [("E1", "S1")] }

/-- Projection of the CLI discover result onto the re-attributed count. -/
def discover_count : Except String (Feature × Int) → Option Int
  | Except.ok p => some p.2
  | Except.error _ => none

/-- C6 scenario: a primary in_progress feature with work_count 0. -/
def st_c6 : GraphState :=
  { empty_state with
      features := [{ base_feature with fid := "F6", status := "in_progress",
                                       is_primary := true }],
      sessions := [base_session] }

/-- C7 scenario: feature F7 with an in_progress step and a pending step. -/
def step0 : Step :=
  { step_id := "s0", feature_id := "F7", description := "Write parser",
    status := "in_progress", step_order := 0, expected_tools := [],
    created_at := 900, started_at := some 900, completed_at := none,
    updated_at := none }

def step1 : Step :=
  { step_id := "s1", feature_id := "F7", description := "Write tests",
    status := "pending", step_order := 1, expected_tools := [],
    created_at := 900, started_at := none, completed_at := none,
    updated_at := none }

def st_c7 : GraphState :=
  { empty_state with
      features := [{ base_feature with fid := "F7", status := "in_progress" }],
      steps := [step0, step1] }

/-- Is an Except an error? -/
def except_is_err {ε α : Type} : Except ε α → Bool
  | Except.error _ => true
  | Except.ok _ => false

/-- C8 scenario: feature F8 with one existing pending step of order 0. -/
def old_step : Step :=
  { step_id := "olds", feature_id := "F8", description := "Old step",
    status := "pending", step_order := 0, expected_tools := [],
    created_at := 900, started_at := none, completed_at := none,
    updated_at := none }

def st_c8 : GraphState :=
  { empty_state with
      features := [{ base_feature with fid := "F8", status := "in_progress" }],
      steps := [old_step] }

/-- State after a TodoWrite sync that replaced the old plan by one new todo. -/
def c8_synced : GraphState :=
  (sync_steps_from_todos st_c8 "F8"
    [{ content := "New step", status := "pending" }]).2

/-- C9 scenario: chain a CHILD_OF m CHILD_OF b, so b is an ancestor of a. -/
def st_c9 : GraphState :=
  { empty_state with
      features := [{ base_feature with fid := "a" },
                   { base_feature with fid := "m" },
                   { base_feature with fid := "b" }],
      childOf := [("a", "m"), ("m", "b")] }

/-- Claim C2, counterexample: a work-tool (Edit) PostToolUse event arriving
when no Feature exists does NOT yield a Session-Work Feature with the event
linked — the ingestion stores the event with no feature at all: afterwards
the project still has zero features (in particular no Session-Work feature)
and zero LINKED_TO edges, where the claim demands a Session-Work feature with
exactly one linked event and work_count 1. -/
theorem C2_counterexample :
    (handle_post_tool_use st_c2 "Edit" ti_edit tool_ok "E1" "swid" "uid"
      "/p" "S1").features = [] ∧
    (handle_post_tool_use st_c2 "Edit" ti_edit tool_ok "E1" "swid" "uid"
      "/p" "S1").linkedTo = [] := by
  constructor <;> rfl

/-- Claim C3: re-delivering the identical hook event (same deterministic
Event.id "E1", linked to feature F) does not reproduce the same graph state —
the second delivery appends a second LINKED_TO edge (Cypher CREATE, not
MERGE) and increments the session's event_count again, although no new Event
node is created.  This contradicts both the spec's idempotency guarantee and
the source's own dedup comments ("MERGE to prevent duplicates", "Use
tool_use_id as event_id for deduplication"). -/
theorem C3_redelivery_not_idempotent :
    c3_first.linkedTo = [("E1", "F")] ∧
    c3_second.linkedTo = [("E1", "F"), ("E1", "F")] ∧
    c3_second.events.length = c3_first.events.length ∧
    c3_first.sessions.map (fun s => s.event_count) = [0] ∧
    c3_second.sessions.map (fun s => s.event_count) = [1] ∧
    ¬ (c3_second = c3_first) := by
  refine ⟨rfl, rfl, rfl, rfl, rfl, ?_⟩
  decide

/-- Claim C4, counterexample: the sequence create(pending) → start_feature →
complete_feature emits NO StatusEvent at all (start_feature and
complete_feature set Feature.status directly), not the two the claim
requires. -/
theorem C4_counterexample :
    c4_final.statusEvents.length = 0 ∧ ¬ (c4_final.statusEvents.length = 2) := by
  constructor
  · rfl
  · decide

/-- Claim C5, counterexample: with exactly one eligible Session-Work event
(E1, an Edit within the lookback window), the CLI IjokaClient.discover_feature
returns a re-attributed count of 0 and creates no LINKED_TO edge to the new
feature — its docstring admits the count is a placeholder — whereas the claim
requires the count 1 and an additional edge. -/
theorem C5_counterexample :
    eligible_rows st_c5 "/p" 60 = ["E1"] ∧
    discover_count (Cli.discover_feature st_c5 "/p" "NF" "README edits"
      "documentation" 50 [] 60 false "feature").1 = some 0 ∧
    (Cli.discover_feature st_c5 "/p" "NF" "README edits" "documentation" 50 []
      60 false "feature").2.linkedTo = [("E1", "SW")] := by
  exact ⟨rfl, rfl, rfl⟩

/-- Claim C6, counterexample: a successful Read event attributed to the
in_progress feature F6 adds one new LINKED_TO edge to F6 but leaves
work_count at 0 — the ingestion path increments work_count only for
Edit/Write/Bash/Task tools, so linking N events does not increment
work_count by N. -/
theorem C6_counterexample :
    (handle_post_tool_use st_c6 "Read" ti_read_src tool_ok "E6" "swid" "uid"
      "/p" "S1").linkedTo = [("E6", "F6")] ∧
    ((find_feature (handle_post_tool_use st_c6 "Read" ti_read_src tool_ok "E6"
      "swid" "uid" "/p" "S1") "F6").map (fun f => f.work_count)) = some 0 := by
  constructor <;> decide

/-- Claim C7: when step_completed substring-matches the active Step
("Write parser"), checkpoint writes the literal status "complete" — which is
not a member of the StepStatus enum (pending/in_progress/completed/skipped) —
so building the pydantic Step model raises ValueError: the call errors
instead of returning warnings, the Step is left with the invalid status
"complete" (not "completed"), and the next pending Step is never activated.
The enum in models.py shows "completed" is the intended literal, so this is
a slip in the code. -/
theorem C7_checkpoint_raises :
    except_is_err (Cli.checkpoint st_c7 "/p" (some "F7") (some "Write parser")
      none).1 = true ∧
    (Cli.checkpoint st_c7 "/p" (some "F7") (some "Write parser") none).2.steps.map
      (fun s => (s.step_id, s.status)) =
      [("s0", "complete"), ("s1", "pending")] := by
  constructor <;> decide

/-- Claim C8, counterexample: a TodoWrite sync that replaces the plan
(existing step "Old step" of order 0; todos = ["New step"]) leaves the
feature with two Steps whose step_order values are [0, 0] — not a
permutation of 0..1: the skipped step keeps its old order and the new step
reuses index 0. -/
theorem C8_counterexample :
    ((get_steps c8_synced "F8").map (fun s => s.step_order)) = [0, 0] ∧
    (get_steps c8_synced "F8").length = 2 ∧
    ¬ List.Perm ((get_steps c8_synced "F8").map (fun s => s.step_order))
        (List.range (get_steps c8_synced "F8").length) := by
  refine ⟨rfl, rfl, ?_⟩
  decide

/-- Claim C9, counterexample: with the chain a CHILD_OF m CHILD_OF b (so b IS
an ancestor of a), link_to_parent(a, b) does not raise a cycle error and does
modify the graph: it re-parents a under b (the old edge (a, m) is deleted and
(a, b) created).  The cycle check fires in the opposite direction (when a is
an ancestor of b), which is what actually creates a cycle. -/
theorem C9_counterexample :
    (Cli.get_ancestors st_c9 "a").contains "b" = true ∧
    except_is_err (Cli.link_to_parent st_c9 "a" "b").1 = false ∧
    (Cli.link_to_parent st_c9 "a" "b").2.childOf = [("m", "b"), ("a", "b")] ∧
    ¬ ((Cli.link_to_parent st_c9 "a" "b").2.childOf = st_c9.childOf) := by
  refine ⟨rfl, rfl, rfl, ?_⟩
  decide

/-- Claim C1: when a Feature's claim triple is held by a different session,
start_feature with force_override = false returns the conflict result (None)
and leaves the entire graph unchanged if that session is active within the
30-minute stale threshold; if the claiming session is stale, the claim is
silently overridden: the call returns the feature, now in_progress and
claimed by the caller's session. -/
theorem C1_start_feature_claim_arbitration
    (st : GraphState) (fid : String) (agent : Option String) (sid : String)
    (c : String × Option String × Option Int)
    (hc : get_feature_claim st fid = some c)
    (hne : (c.1 == sid) = false)
    (hs : (sid == "") = false) :
    (is_session_active st c.1 30 = true →
        start_feature st fid agent (some sid) false = (none, st)) ∧
    (is_session_active st c.1 30 = false →
        ∃ f', (start_feature st fid agent (some sid) false).1 = some f' ∧
          f'.status = "in_progress" ∧ f'.claiming_session_id = some sid ∧
          f'.claiming_agent = agent ∧
          find_feature (start_feature st fid agent (some sid) false).2 fid =
            some f') := by
  have hf : ∃ f, find_feature st fid = some f := by
    unfold get_feature_claim at hc
    cases hff : find_feature st fid with
    | none => rw [hff] at hc; exact absurd hc (by simp)
    | some f => exact ⟨f, rfl⟩
  obtain ⟨f, hff⟩ := hf
  have hne' : (c.1 != sid) = true := by
    simp only [bne, hne, Bool.not_false]
  constructor
  · intro hact
    unfold start_feature
    simp only [hc, hs, Bool.false_eq_true, if_false, hne', hact,
      Bool.not_false, Bool.and_true, Bool.true_and, if_true]
  · intro hact
    unfold start_feature
    simp only [hc, hs, Bool.false_eq_true, if_false, hne', hact,
      Bool.not_false, Bool.and_true, Bool.true_and, Bool.and_false,
      Bool.false_and, if_false]
    have hw : start_feature_write st fid agent sid =
        (some (start_tr agent sid st.now f),
         update_feature st fid (start_tr agent sid st.now)) := by
      unfold start_feature_write; rw [hff]
    rw [hw]
    refine ⟨start_tr agent sid st.now f, rfl, rfl, rfl, rfl, ?_⟩
    show find_feature (update_feature st fid (start_tr agent sid st.now)) fid =
      some (start_tr agent sid st.now f)
    rw [find_feature_update_feature st fid (start_tr agent sid st.now)
      (fun _ => rfl), hff]
    rfl

/-- Claim C9 (amended): link_to_parent(a, b) raises a ValueError and leaves
the graph unchanged when a = b (self-parent) or when a is an ancestor of b —
exactly the configuration in which the new edge would close a CHILD_OF cycle.
(When b is merely an ancestor of a, the call succeeds and re-parents a; see
the counterexample.) -/
theorem C9_link_to_parent_rejects_cycles (st : GraphState) (a b : String)
    (h : a = b ∨ (Cli.get_ancestors st b).contains a = true) :
    ∃ e, Cli.link_to_parent st a b = (Except.error e, st) := by
  unfold Cli.link_to_parent
  by_cases hab : a = b
  · have hb : (a == b) = true := beq_iff_eq.mpr hab
    exact ⟨"Feature cannot be its own parent", by simp [hb]⟩
  · cases h with
    | inl h' => exact absurd h' hab
    | inr h' =>
      have hb : (a == b) = false := beq_eq_false_iff_ne.mpr hab
      have hmem : a ∈ Cli.get_ancestors st b := by simpa using h'
      exact ⟨"Circular dependency: feature is already an ancestor of proposed parent",
        by simp [hb, hmem]⟩

theorem filter_not_filter (l : List Step) (p : Step → Bool) :
    ((l.filter fun s => !(p s)).filter p) = [] := by
  induction l with
  | nil => rfl
  | cons x t ih =>
    cases hx : p x with
    | true => simp [List.filter_cons, hx, ih]
    | false => simp [List.filter_cons, hx, ih]

theorem create_plan_steps_filter (fid : String) (pairs : List (Nat × String)) :
    ∀ st : GraphState,
      ((Cli.create_plan_steps fid st pairs).2.steps.filter
          (fun s => s.feature_id == fid)).map (fun s => s.step_order) =
        (st.steps.filter (fun s => s.feature_id == fid)).map
          (fun s => s.step_order) ++ pairs.map (fun p => p.1) := by
  induction pairs with
  | nil => intro st; simp [Cli.create_plan_steps]
  | cons p rest ih =>
    intro st
    simp only [Cli.create_plan_steps]
    rw [ih]
    simp [List.filter_append, List.filter_cons]

/-- Claim C8 (amended): after set_plan(f, S) the Step.step_order values of
f's Steps are exactly 0..|S|-1 (in particular a permutation of them).  The
TodoWrite sync does NOT preserve this invariant (see the counterexample):
skipped steps keep their old step_order and new steps are numbered by todo
index, so collisions and gaps can appear. -/
theorem C8_set_plan_orders (st : GraphState) (fid : String)
    (descs : List String)
    (hfeat : (find_feature st fid).isSome = true) :
    ((Cli.set_plan st fid descs).2.steps.filter
        (fun s => s.feature_id == fid)).map (fun s => s.step_order) =
      List.range descs.length ∧
    List.Perm (((Cli.set_plan st fid descs).2.steps.filter
        (fun s => s.feature_id == fid)).map (fun s => s.step_order))
      (List.range descs.length) := by
  have hmain : ((Cli.set_plan st fid descs).2.steps.filter
      (fun s => s.feature_id == fid)).map (fun s => s.step_order) =
      List.range descs.length := by
    unfold Cli.set_plan
    simp only [hfeat, if_true]
    rw [create_plan_steps_filter]
    simp only [filter_not_filter, List.map_nil, List.nil_append]
    exact List.enum_map_fst descs
  exact ⟨hmain, hmain ▸ List.Perm.refl _⟩

theorem bool_and_split {a b : Bool} (h : (a && b) = true) :
    a = true ∧ b = true := by
  cases a <;> cases b <;> simp_all

theorem pick_max_priority_mem :
    ∀ (l : List Feature) (acc : Option Feature) (f : Feature),
      pick_max_priority acc l = some f → acc = some f ∨ f ∈ l := by
  intro l
  induction l with
  | nil => intro acc f h; exact Or.inl h
  | cons x t ih =>
    intro acc f h
    cases acc with
    | none =>
      cases ih (some x) f h with
      | inl h' =>
        exact Or.inr (List.mem_cons.mpr (Or.inl (Option.some_inj.mp h').symm))
      | inr h' => exact Or.inr (List.mem_cons_of_mem x h')
    | some g =>
      cases ih (some (if x.priority > g.priority then x else g)) f h with
      | inl h' =>
        by_cases hp : x.priority > g.priority
        · rw [if_pos hp] at h'
          exact Or.inr (List.mem_cons.mpr (Or.inl (Option.some_inj.mp h').symm))
        · rw [if_neg hp] at h'
          exact Or.inl (by rw [Option.some_inj.mp h'])
      | inr h' => exact Or.inr (List.mem_cons_of_mem x h')

theorem pick_max_priority_ge :
    ∀ (l : List Feature) (acc : Option Feature) (f : Feature),
      pick_max_priority acc l = some f →
        (∀ a, acc = some a → a.priority ≤ f.priority) ∧
        (∀ g ∈ l, g.priority ≤ f.priority) := by
  intro l
  induction l with
  | nil =>
    intro acc f h
    refine ⟨fun a ha => ?_, fun g hg => absurd hg (List.not_mem_nil g)⟩
    have h' : acc = some f := h
    rw [h'] at ha
    have : f = a := Option.some_inj.mp ha
    rw [← this]
  | cons x t ih =>
    intro acc f h
    cases acc with
    | none =>
      have hx := ih (some x) f h
      refine ⟨fun a ha => by exact absurd ha (by simp), fun g hg => ?_⟩
      cases List.mem_cons.mp hg with
      | inl h' => rw [h']; exact hx.1 x rfl
      | inr h' => exact hx.2 g h'
    | some g0 =>
      have hx := ih (some (if x.priority > g0.priority then x else g0)) f h
      have hmx : (if x.priority > g0.priority then x else g0).priority ≤
          f.priority := hx.1 _ rfl
      have hxle : x.priority ≤ f.priority := by
        by_cases hp : x.priority > g0.priority
        · rw [if_pos hp] at hmx; exact hmx
        · rw [if_neg hp] at hmx; exact le_trans (le_of_not_gt hp) hmx
      have hg0le : g0.priority ≤ f.priority := by
        by_cases hp : x.priority > g0.priority
        · rw [if_pos hp] at hmx; exact le_trans (le_of_lt hp) hmx
        · rw [if_neg hp] at hmx; exact hmx
      refine ⟨fun a ha => ?_, fun g hg => ?_⟩
      · have : g0 = a := Option.some_inj.mp ha
        rw [← this]; exact hg0le
      · cases List.mem_cons.mp hg with
        | inl h' => rw [h']; exact hxle
        | inr h' => exact hx.2 g h'

/-- Claim C10: on the PostToolUse path, every non-meta, non-diagnostic tool
event is attributed to the project's active feature as computed by
get_active_feature only: the primary in_progress Feature when one exists,
otherwise an in_progress Feature of maximal priority.  The selection takes
no input from the event (file path, keywords, scoring weights): any
tool_input that is not classified diagnostic yields the same selection. -/
theorem C10_attribution (st : GraphState) (tool_name : String)
    (ti : ToolInput) (project_dir fresh_sw_id : String)
    (hmeta : is_mcp_meta_tool tool_name = false)
    (hdiag : is_diagnostic_command tool_name ti = false) :
    selected_feature st tool_name ti project_dir fresh_sw_id =
      (get_active_feature st project_dir, st) ∧
    (∀ ti2 : ToolInput, is_diagnostic_command tool_name ti2 = false →
      selected_feature st tool_name ti2 project_dir fresh_sw_id =
        (get_active_feature st project_dir, st)) ∧
    (∀ F : Feature, get_active_feature st project_dir = some F →
      F.status = "in_progress" ∧ F.project_path = project_dir ∧
      ((st.features.any fun g =>
          g.status == "in_progress" && g.is_primary &&
            g.project_path == project_dir) = true → F.is_primary = true) ∧
      ((st.features.any fun g =>
          g.status == "in_progress" && g.is_primary &&
            g.project_path == project_dir) = false →
        ∀ g ∈ st.features, g.status = "in_progress" →
          g.project_path = project_dir → g.priority ≤ F.priority)) := by
  refine ⟨by simp [selected_feature, hmeta, hdiag],
          fun ti2 hd2 => by simp [selected_feature, hmeta, hd2],
          fun F hF => ?_⟩
  unfold get_active_feature at hF
  cases hfind : st.features.find? (fun f =>
      f.status == "in_progress" && f.is_primary && f.project_path ==
        project_dir) with
  | some f0 =>
    rw [hfind] at hF
    have hFeq : f0 = F := Option.some_inj.mp hF
    have hp0 := List.find?_some hfind
    have hp : (F.status == "in_progress" && F.is_primary &&
        F.project_path == project_dir) = true := by rw [← hFeq]; exact hp0
    have h1 : F.status = "in_progress" :=
      beq_iff_eq.mp (bool_and_split (bool_and_split hp).1).1
    have h2 : F.is_primary = true := (bool_and_split (bool_and_split hp).1).2
    have h3 : F.project_path = project_dir :=
      beq_iff_eq.mp (bool_and_split hp).2
    have hany : (st.features.any fun g =>
        g.status == "in_progress" && g.is_primary &&
          g.project_path == project_dir) = true := by
      have hmem := List.mem_of_find?_eq_some hfind
      exact List.any_eq_true.mpr ⟨F, hFeq ▸ hmem, hp⟩
    refine ⟨h1, h3, fun _ => h2, fun hfalse _ _ _ _ => ?_⟩
    rw [hany] at hfalse
    exact absurd hfalse (by simp)
  | none =>
    rw [hfind] at hF
    have hmem0 := pick_max_priority_mem _ none F hF
    have hmemF : F ∈ st.features.filter (fun f =>
        f.status == "in_progress" && f.project_path == project_dir) := by
      cases hmem0 with
      | inl h' => exact absurd h' (by simp)
      | inr h' => exact h'
    have hpF : (F.status == "in_progress" && F.project_path ==
        project_dir) = true := (List.mem_filter.mp hmemF).2
    have h1 : F.status = "in_progress" := beq_iff_eq.mp (bool_and_split hpF).1
    have h3 : F.project_path = project_dir :=
      beq_iff_eq.mp (bool_and_split hpF).2
    refine ⟨h1, h3, fun hany => ?_, fun _ g hg hgs hgp => ?_⟩
    · obtain ⟨x, hxmem, hxp⟩ := List.any_eq_true.mp hany
      have := List.find?_eq_none.mp hfind x hxmem
      exact absurd hxp this
    · have hge := (pick_max_priority_ge _ none F hF).2
      refine hge g (List.mem_filter.mpr ⟨hg, ?_⟩)
      simp [hgs, hgp]

@[simp] theorem insert_event_base_features (st : GraphState)
    (et sa sid pd : String) (tn : Option String) (succ : Bool)
    (summ : Option String) (eid : String) :
    (insert_event_base st et sa sid pd tn succ summ eid).features =
      st.features := by
  simp [insert_event_base]

@[simp] theorem insert_event_base_linkedTo (st : GraphState)
    (et sa sid pd : String) (tn : Option String) (succ : Bool)
    (summ : Option String) (eid : String) :
    (insert_event_base st et sa sid pd tn succ summ eid).linkedTo =
      st.linkedTo := by
  simp [insert_event_base]

@[simp] theorem insert_event_base_statusEvents (st : GraphState)
    (et sa sid pd : String) (tn : Option String) (succ : Bool)
    (summ : Option String) (eid : String) :
    (insert_event_base st et sa sid pd tn succ summ eid).statusEvents =
      st.statusEvents := by
  simp [insert_event_base]

@[simp] theorem insert_event_base_steps (st : GraphState)
    (et sa sid pd : String) (tn : Option String) (succ : Bool)
    (summ : Option String) (eid : String) :
    (insert_event_base st et sa sid pd tn succ summ eid).steps = st.steps := by
  simp [insert_event_base]

@[simp] theorem insert_event_base_now (st : GraphState)
    (et sa sid pd : String) (tn : Option String) (succ : Bool)
    (summ : Option String) (eid : String) :
    (insert_event_base st et sa sid pd tn succ summ eid).now = st.now := by
  simp [insert_event_base]

theorem auto_transition_noop (st : GraphState) (fid trig : String)
    (sid : Option String) (F : Feature) (hf : find_feature st fid = some F)
    (hstat : (F.status != "pending") = true) :
    auto_transition_to_in_progress st fid trig sid = (false, st) := by
  unfold auto_transition_to_in_progress
  rw [hf]
  simp [hstat]

theorem insert_event_no_feature_spec (st : GraphState) (et sa sid pd : String)
    (tn stepid : Option String) (succ : Bool) (summ : Option String)
    (eid : String) :
    (insert_event st et sa sid pd tn none stepid succ summ eid).2.features =
      st.features ∧
    (insert_event st et sa sid pd tn none stepid succ summ eid).2.linkedTo =
      st.linkedTo ∧
    (insert_event st et sa sid pd tn none stepid succ summ eid).2.statusEvents =
      st.statusEvents := by
  cases stepid with
  | none => refine ⟨?_, ?_, ?_⟩ <;> simp [insert_event]
  | some sp =>
    refine ⟨?_, ?_, ?_⟩ <;>
      (simp only [insert_event]; split <;> (try split) <;> simp)

theorem insert_event_with_feature_spec (st : GraphState)
    (et sa sid pd : String) (tn : Option String) (fid : String)
    (stepid : Option String) (succ : Bool) (summ : Option String)
    (eid : String) (F : Feature) (hf : find_feature st fid = some F)
    (hstat : (F.status != "pending") = true) :
    (insert_event st et sa sid pd tn (some fid) stepid succ summ
      eid).2.features = st.features ∧
    (insert_event st et sa sid pd tn (some fid) stepid succ summ
      eid).2.linkedTo = st.linkedTo ++ [(eid, fid)] ∧
    (insert_event st et sa sid pd tn (some fid) stepid succ summ
      eid).2.statusEvents = st.statusEvents := by
  have hfb : find_feature (insert_event_base st et sa sid pd tn succ summ eid)
      fid = some F := by
    rw [find_feature_congr fid (insert_event_base_features st et sa sid pd tn
      succ summ eid)]
    exact hf
  have hauto : ∀ s2 : GraphState, s2.features = st.features →
      auto_transition_to_in_progress s2 fid
        ("auto:first_activity:" ++ eid) (some sid) = (false, s2) := by
    intro s2 h2
    exact auto_transition_noop s2 fid _ _ F
      (by rw [find_feature_congr fid h2]; exact hf) hstat
  cases stepid with
  | none =>
    refine ⟨?_, ?_, ?_⟩ <;>
      (simp only [insert_event, hfb, Option.isSome_some, if_true]
       rw [hauto _ (by simp)] <;> simp)
  | some sp =>
    refine ⟨?_, ?_, ?_⟩ <;>
      (simp only [insert_event, hfb, Option.isSome_some, if_true]
       split <;> (try split) <;> (rw [hauto _ (by simp)] <;> simp))

theorem selected_feature_plain (st : GraphState) (tool_name : String)
    (ti : ToolInput) (pd swid : String)
    (hmeta : is_mcp_meta_tool tool_name = false)
    (hdiag : is_diagnostic_command tool_name ti = false) :
    selected_feature st tool_name ti pd swid =
      (get_active_feature st pd, st) := by
  simp [selected_feature, hmeta, hdiag]

theorem get_active_feature_in_progress (st : GraphState) (pd : String)
    (F : Feature) (h : get_active_feature st pd = some F) :
    F.status = "in_progress" := by
  unfold get_active_feature at h
  cases hfind : st.features.find? (fun f =>
      f.status == "in_progress" && f.is_primary && f.project_path == pd) with
  | some f0 =>
    rw [hfind] at h
    have hFeq : f0 = F := Option.some_inj.mp h
    have hp0 := List.find?_some hfind
    have hp : (F.status == "in_progress" && F.is_primary &&
        F.project_path == pd) = true := by rw [← hFeq]; exact hp0
    exact beq_iff_eq.mp (bool_and_split (bool_and_split hp).1).1
  | none =>
    rw [hfind] at h
    have hmem0 := pick_max_priority_mem _ none F h
    have hmemF : F ∈ st.features.filter (fun f =>
        f.status == "in_progress" && f.project_path == pd) := by
      cases hmem0 with
      | inl h' => exact absurd h' (by simp)
      | inr h' => exact h'
    exact beq_iff_eq.mp (bool_and_split (List.mem_filter.mp hmemF).2).1

theorem check_completion_manual (F : Feature) (tool_name : String)
    (ti : ToolInput) (tr : ToolResult) (hcrit : F.completion_criteria = none) :
    (check_completion_criteria F tool_name ti tr).1 = false := by
  unfold check_completion_criteria
  rw [hcrit]
  cases htr : tr.is_error <;> rfl

theorem maybe_auto_complete_manual (st : GraphState) (pd : String)
    (F : Feature) (tool_name : String) (ti : ToolInput) (tr : ToolResult)
    (hcrit : F.completion_criteria = none) :
    maybe_auto_complete st pd (some F) false tool_name ti tr =
      (none,
        if (tool_name == "Edit" || tool_name == "Write" ||
            tool_name == "Bash" || tool_name == "Task") && !tr.is_error then
          (increment_work_count st F.fid).2
        else st) := by
  unfold maybe_auto_complete
  have hchk := check_completion_manual F tool_name ti tr hcrit
  cases hw : ((tool_name == "Edit" || tool_name == "Write" ||
      tool_name == "Bash" || tool_name == "Task") && !tr.is_error) with
  | true =>
    simp only [Bool.false_eq_true, if_false, hw, if_true, hcrit]
    rw [if_neg (by rw [hchk]; exact Bool.false_ne_true)]
  | false =>
    simp only [Bool.false_eq_true, if_false, hw]
    rw [if_neg (by rw [hchk]; exact Bool.false_ne_true)]

/-- Claim C2 (amended): on the PostToolUse path a work-tool event that is not
meta and not diagnostic is attributed via get_active_feature only; when no
in_progress Feature exists the event is stored linked to its Session alone —
no LINKED_TO edge is created, no Session-Work Feature is created, and no
Feature is modified.  Session-Work receives only MCP-meta (mcp__ijoka__*)
events; there is no Session-Work fallback for ordinary work tools. -/
theorem C2_no_session_work_fallback (st : GraphState) (tool_name : String)
    (ti : ToolInput) (tr : ToolResult)
    (tool_use_id fresh_sw_id fresh_event_id project_dir session_id : String)
    (htodo : (tool_name == "TodoWrite") = false)
    (hskip : skip_tracking ti = false)
    (hmeta : is_mcp_meta_tool tool_name = false)
    (hdiag : is_diagnostic_command tool_name ti = false)
    (hnone : get_active_feature st project_dir = none) :
    (handle_post_tool_use st tool_name ti tr tool_use_id fresh_sw_id
      fresh_event_id project_dir session_id).features = st.features ∧
    (handle_post_tool_use st tool_name ti tr tool_use_id fresh_sw_id
      fresh_event_id project_dir session_id).linkedTo = st.linkedTo := by
  have hins := insert_event_no_feature_spec st "ToolCall" "claude-code"
    session_id project_dir (some tool_name) none (!tr.is_error)
    (some (summarize_input tool_name ti)) tool_use_id
  unfold handle_post_tool_use
  rw [if_neg (by rw [htodo]; exact Bool.false_ne_true),
      if_neg (by rw [hskip]; exact Bool.false_ne_true),
      selected_feature_plain st tool_name ti project_dir fresh_sw_id hmeta
        hdiag, hnone]
  simp only [maybe_auto_complete, update_session_activity_features,
    update_session_activity_linkedTo, Option.map_none]
  exact ⟨hins.1, hins.2.1⟩

/-- Claim C6 (amended): at ingestion, attributing one event to the active
feature F adds exactly one LINKED_TO edge to F, but work_count is
incremented only when the tool is one of Edit/Write/Bash/Task and the call
succeeded (by maybe_auto_complete); linked events of any other tool leave
work_count unchanged.  (During re-attribution work_count instead grows by
the number of matched rows; see the C5 theorem.) -/
theorem C6_work_count_increment (st : GraphState) (tool_name : String)
    (ti : ToolInput) (tr : ToolResult)
    (tool_use_id fresh_sw_id fresh_event_id project_dir session_id : String)
    (F : Feature)
    (htodo : (tool_name == "TodoWrite") = false)
    (hskip : skip_tracking ti = false)
    (hmeta : is_mcp_meta_tool tool_name = false)
    (hdiag : is_diagnostic_command tool_name ti = false)
    (hact : get_active_feature st project_dir = some F)
    (hfind : find_feature st F.fid = some F)
    (hcrit : F.completion_criteria = none) :
    (handle_post_tool_use st tool_name ti tr tool_use_id fresh_sw_id
      fresh_event_id project_dir session_id).linkedTo =
      st.linkedTo ++ [(tool_use_id, F.fid)] ∧
    (∃ G, find_feature (handle_post_tool_use st tool_name ti tr tool_use_id
        fresh_sw_id fresh_event_id project_dir session_id) F.fid = some G ∧
      G.work_count = F.work_count +
        (if (tool_name == "Edit" || tool_name == "Write" ||
             tool_name == "Bash" || tool_name == "Task") && !tr.is_error
         then 1 else 0)) := by
  have hstat : F.status = "in_progress" :=
    get_active_feature_in_progress st project_dir F hact
  have hstat' : (F.status != "pending") = true := by
    rw [hstat]; rfl
  have hpass : (F.status == "complete") = false := by rw [hstat]; rfl
  have hins := insert_event_with_feature_spec st "ToolCall" "claude-code"
    session_id project_dir (some tool_name) F.fid
    ((get_active_step st F.fid).map (fun s => s.step_id)) (!tr.is_error)
    (some (summarize_input tool_name ti)) tool_use_id F hfind hstat'
  unfold handle_post_tool_use
  rw [if_neg (by rw [htodo]; exact Bool.false_ne_true),
      if_neg (by rw [hskip]; exact Bool.false_ne_true),
      selected_feature_plain st tool_name ti project_dir fresh_sw_id hmeta
        hdiag, hact]
  simp only [hdiag, Bool.not_false, if_true, hmeta,
    Bool.false_eq_true, if_false, hpass]
  set st4 := (insert_event st "ToolCall" "claude-code" session_id project_dir
    (some tool_name) (Option.map (fun f => f.fid) (some F))
    (Option.map (fun s => s.step_id) (get_active_step st F.fid)) (!tr.is_error)
    (some (summarize_input tool_name ti)) tool_use_id).2 with hst4
  have hins2 : st4.features = st.features ∧
      st4.linkedTo = st.linkedTo ++ [(tool_use_id, F.fid)] ∧
      st4.statusEvents = st.statusEvents := hins
  set st5 := update_session_activity st4 session_id with hst5
  have hfeat5 : st5.features = st.features := by
    rw [hst5, update_session_activity_features]
    exact hins2.1
  have hlink5 : st5.linkedTo = st.linkedTo ++ [(tool_use_id, F.fid)] := by
    rw [hst5, update_session_activity_linkedTo]
    exact hins2.2.1
  have hf5 : find_feature st5 F.fid = some F := by
    rw [find_feature_congr F.fid hfeat5]
    exact hfind
  have hmac := maybe_auto_complete_manual st5 project_dir F tool_name ti tr
    hcrit
  cases hw : ((tool_name == "Edit" || tool_name == "Write" ||
      tool_name == "Bash" || tool_name == "Task") && !tr.is_error) with
  | true =>
    rw [hw, if_pos rfl] at hmac
    rw [hmac]
    constructor
    · show ((increment_work_count st5 F.fid).2).linkedTo =
        st.linkedTo ++ [(tool_use_id, F.fid)]
      unfold increment_work_count
      rw [hf5]
      show (update_feature st5 F.fid (work_tr st5.now)).linkedTo = _
      rw [update_feature_linkedTo]
      exact hlink5
    · refine ⟨work_tr st5.now F, ?_, ?_⟩
      · show find_feature ((increment_work_count st5 F.fid).2) F.fid = _
        unfold increment_work_count
        rw [hf5]
        show find_feature (update_feature st5 F.fid (work_tr st5.now))
          F.fid = _
        rw [find_feature_update_feature st5 F.fid (work_tr st5.now)
          (fun _ => rfl), hf5]
        rfl
      · show F.work_count + 1 = F.work_count + (if true = true then 1 else 0)
        rfl
  | false =>
    rw [hw, if_neg (by exact Bool.false_ne_true)] at hmac
    rw [hmac]
    constructor
    · exact hlink5
    · refine ⟨F, hf5, ?_⟩
      show F.work_count = F.work_count + (if false = true then 1 else 0)
      simp

theorem list_find_append_single {α : Type} (l : List α) (x : α)
    (p : α → Bool) (hx : p x = false) : (l ++ [x]).find? p = l.find? p := by
  cases h : l.find? p with
  | some y => exact list_find_append_some l [x] p h
  | none =>
    rw [list_find_append_none l [x] p h]
    simp [List.find?_cons, hx]

theorem list_filterMap_congr {α β : Type} (l : List α) (f g : α → Option β)
    (h : ∀ a ∈ l, f a = g a) : l.filterMap f = l.filterMap g := by
  induction l with
  | nil => rfl
  | cons x t ih =>
    rw [List.filterMap_cons, List.filterMap_cons,
      h x (List.mem_cons_self x t),
      ih (fun a ha => h a (List.mem_cons_of_mem x ha))]

theorem eligible_rows_congr (s2 st : GraphState) (pd : String) (lb : Int)
    (hl : s2.linkedTo = st.linkedTo) (he : s2.events = st.events)
    (hn : s2.now = st.now)
    (hf : ∀ q : String, (∃ p ∈ st.linkedTo, p.2 = q) →
      s2.features.find? (fun f => f.fid == q) =
        st.features.find? (fun f => f.fid == q)) :
    eligible_rows s2 pd lb = eligible_rows st pd lb := by
  unfold eligible_rows
  rw [hl, he, hn]
  exact list_filterMap_congr _ _ _ (fun p hp => by rw [hf p.2 ⟨p, hp, rfl⟩])

theorem eligible_rows_events (s : GraphState) (pd : String) (lb : Int) :
    ∀ e ∈ eligible_rows s pd lb,
      s.events.any (fun ev => ev.eid == e) = true := by
  intro e he
  obtain ⟨p, hp, hbody⟩ := List.mem_filterMap.mp he
  split at hbody
  · exact absurd hbody (by simp)
  · split at hbody
    · split at hbody
      case _ h1 _ h2 =>
        exact absurd hbody (by simp)
      case _ h1 _ ev h2 =>
        split at hbody
        · have hee : p.1 = e := Option.some_inj.mp hbody
          have hm := List.mem_of_find?_eq_some h2
          have hpred := List.find?_some h2
          refine List.any_eq_true.mpr ⟨ev, hm, ?_⟩
          rw [← hee]
          exact hpred
        · exact absurd hbody (by simp)
    · exact absurd hbody (by simp)

theorem merge_linked_to_features (st : GraphState) (e fid : String) :
    (merge_linked_to st e fid).features = st.features := by
  unfold merge_linked_to
  split
  · split <;> rfl
  · rfl

theorem merge_linked_to_events (st : GraphState) (e fid : String) :
    (merge_linked_to st e fid).events = st.events := by
  unfold merge_linked_to
  split
  · split <;> rfl
  · rfl

theorem merge_linked_to_superset (st : GraphState) (e fid : String) :
    ∀ p ∈ st.linkedTo, p ∈ (merge_linked_to st e fid).linkedTo := by
  intro p hp
  unfold merge_linked_to
  split
  · split
    · exact hp
    · exact List.mem_append_left _ hp
  · exact hp

theorem merge_linked_to_adds (st : GraphState) (e fid : String)
    (hev : st.events.any (fun ev => ev.eid == e) = true)
    (hfe : (find_feature st fid).isSome = true) :
    (e, fid) ∈ (merge_linked_to st e fid).linkedTo := by
  unfold merge_linked_to
  rw [if_pos (by rw [hev, hfe]; rfl)]
  split
  case _ h => exact h
  case _ h => exact List.mem_append_right _ (List.mem_singleton.mpr rfl)

theorem merge_fold_spec (fid : String) :
    ∀ (rows : List String) (st : GraphState),
      ((rows.foldl (fun acc eid => merge_linked_to acc eid fid) st).features =
        st.features) ∧
      ((rows.foldl (fun acc eid => merge_linked_to acc eid fid) st).events =
        st.events) ∧
      (∀ p ∈ st.linkedTo,
        p ∈ (rows.foldl (fun acc eid => merge_linked_to acc eid fid)
          st).linkedTo) ∧
      ((∀ e ∈ rows, st.events.any (fun ev => ev.eid == e) = true) →
        (find_feature st fid).isSome = true →
        ∀ e ∈ rows,
          (e, fid) ∈ (rows.foldl (fun acc eid => merge_linked_to acc eid fid)
            st).linkedTo) := by
  intro rows
  induction rows with
  | nil =>
    intro st
    exact ⟨rfl, rfl, fun p hp => hp, fun _ _ e he => absurd he
      (List.not_mem_nil e)⟩
  | cons e rest ih =>
    intro st
    have hstep := ih (merge_linked_to st e fid)
    have hf := merge_linked_to_features st e fid
    have hev := merge_linked_to_events st e fid
    refine ⟨by rw [List.foldl_cons, hstep.1, hf],
            by rw [List.foldl_cons, hstep.2.1, hev], ?_, ?_⟩
    · intro p hp
      rw [List.foldl_cons]
      exact hstep.2.2.1 p (merge_linked_to_superset st e fid p hp)
    · intro hall hfe x hx
      rw [List.foldl_cons]
      cases List.mem_cons.mp hx with
      | inl h' =>
        refine hstep.2.2.1 (x, fid) ?_
        rw [h']
        exact merge_linked_to_adds st e fid (hall e (List.mem_cons_self e rest))
          hfe
      | inr h' =>
        refine hstep.2.2.2 (fun y hy => ?_) ?_ x h'
        · rw [hev]
          exact hall y (List.mem_cons_of_mem e hy)
        · rw [show find_feature (merge_linked_to st e fid) fid =
            find_feature st fid from find_feature_congr fid hf]
          exact hfe

theorem create_feature_spec (st : GraphState) (pd fid desc cat : String)
    (steps : List String) (priority : Int) (inprog : Bool)
    (bh : Option String) (fps : List String) (wt : String) :
    (create_feature st pd fid desc cat steps priority inprog bh fps
        wt).2.features =
      st.features ++ [new_feature_record pd fid desc cat steps priority
        (if inprog then "in_progress" else "pending") bh fps wt st.now] ∧
    (create_feature st pd fid desc cat steps priority inprog bh fps
        wt).2.linkedTo = st.linkedTo ∧
    (create_feature st pd fid desc cat steps priority inprog bh fps
        wt).2.events = st.events ∧
    (create_feature st pd fid desc cat steps priority inprog bh fps
        wt).2.now = st.now := by
  refine ⟨?_, ?_, ?_, ?_⟩ <;> (unfold create_feature; simp)

theorem reattribute_spec (s : GraphState) (pd fid : String) (lb : Int)
    (G0 : Feature) (hfind : find_feature s fid = some G0)
    (hevents : ∀ e ∈ eligible_rows s pd lb,
      s.events.any (fun ev => ev.eid == e) = true) :
    (reattribute_session_work_events s pd fid lb).1 =
      ((eligible_rows s pd lb).length : Int) ∧
    (∀ p ∈ s.linkedTo,
      p ∈ (reattribute_session_work_events s pd fid lb).2.linkedTo) ∧
    (∀ e ∈ eligible_rows s pd lb,
      (e, fid) ∈ (reattribute_session_work_events s pd fid lb).2.linkedTo) ∧
    (∃ G, find_feature (reattribute_session_work_events s pd fid lb).2 fid =
        some G ∧
      G.work_count = G0.work_count + ((eligible_rows s pd lb).length : Int)) := by
  unfold reattribute_session_work_events
  cases hE : eligible_rows s pd lb with
  | nil =>
    simp only [List.isEmpty_nil, if_true]
    refine ⟨by simp, fun p hp => hp, fun e he => absurd he (List.not_mem_nil e),
      ⟨G0, hfind, by simp⟩⟩
  | cons e rest =>
    simp only [List.isEmpty_cons, Bool.false_eq_true, if_false]
    have hall : ∀ x ∈ e :: rest, s.events.any (fun ev => ev.eid == x) = true := by
      intro x hx
      exact hevents x (hE ▸ hx)
    have hfold := merge_fold_spec fid (e :: rest) s
    set st3 := (e :: rest).foldl (fun acc eid => merge_linked_to acc eid fid)
      s with hst3
    have hf3 : find_feature st3 fid = some G0 := by
      rw [find_feature_congr fid hfold.1]
      exact hfind
    refine ⟨by trivial, ?_, ?_, ?_⟩
    · intro p hp
      simp only [update_feature_linkedTo]
      exact hfold.2.2.1 p hp
    · intro x hx
      simp only [update_feature_linkedTo]
      exact hfold.2.2.2 hall (by rw [hfind]; rfl) x (hE ▸ hx)
    · refine ⟨reatt_tr ((e :: rest).length : Int) st3.now G0, ?_, ?_⟩
      · rw [find_feature_update_feature st3 fid
          (reatt_tr ((e :: rest).length : Int) st3.now) (fun _ => rfl), hf3]
        rfl
      · rfl

/-- Claim C5 (amended): the hook-side graph_db_helper.discover_feature
creates the Feature and, for every row of the re-attribution query (a
LINKED_TO edge into the project's Session-Work feature whose event is a
work-tool event inside the lookback window), MERGEs a LINKED_TO edge to the
new feature (existing edges, in particular the Session-Work ones, are all
preserved), sets the new feature's work_count to the row count and returns
that count.  The CLI IjokaClient.discover_feature performs no re-attribution
and always returns 0 (see the counterexample). -/
theorem C5_graph_discover_reattributes (st : GraphState)
    (pd fid desc cat : String) (steps : List String) (priority lookback : Int)
    (mc : Bool) (bh : Option String) (wt : String)
    (hfresh : find_feature st fid = none)
    (hnolinks : ∀ p ∈ st.linkedTo, p.2 ≠ fid) :
    (discover_feature st pd fid desc cat steps priority lookback mc bh
        wt).1.reattributed_events =
      ((eligible_rows st pd lookback).length : Int) ∧
    (∀ e ∈ eligible_rows st pd lookback,
      (e, fid) ∈ (discover_feature st pd fid desc cat steps priority lookback
        mc bh wt).2.linkedTo) ∧
    (∀ p ∈ st.linkedTo, p ∈ (discover_feature st pd fid desc cat steps
        priority lookback mc bh wt).2.linkedTo) ∧
    (∃ G, find_feature (discover_feature st pd fid desc cat steps priority
        lookback mc bh wt).2 fid = some G ∧
      G.work_count = ((eligible_rows st pd lookback).length : Int)) := by
  obtain ⟨hcf, hcl, hce, hcn⟩ := create_feature_spec st pd fid desc cat steps
    priority (!mc) bh [] wt
  set Fnew := new_feature_record pd fid desc cat steps priority
    (if (!mc) then "in_progress" else "pending") bh [] wt st.now with hFnewdef
  set st1 := (create_feature st pd fid desc cat steps priority (!mc) bh []
    wt).2 with hst1
  have hfr' : st.features.find? (fun f => f.fid == fid) = none := hfresh
  have hFf : (Fnew.fid == fid) = true := by rw [hFnewdef]; simp
  have hfind1 : find_feature st1 fid = some Fnew := by
    unfold find_feature
    rw [hcf, list_find_append_none _ _ _ hfr']
    simp [List.find?_cons, hFf]
  set st2 : GraphState := (if mc then (complete_feature st1 fid).2 else st1)
    with hst2
  have hcomp : complete_feature st1 fid =
      (some (complete_tr st1.now Fnew),
       update_feature st1 fid (complete_tr st1.now)) := by
    unfold complete_feature
    rw [hfind1]
  have h2l : st2.linkedTo = st.linkedTo := by
    rw [hst2]
    cases mc with
    | true => rw [if_pos rfl, hcomp]; simp only [update_feature_linkedTo]; exact hcl
    | false => rw [if_neg (by simp)]; exact hcl
  have h2e : st2.events = st.events := by
    rw [hst2]
    cases mc with
    | true => rw [if_pos rfl, hcomp]; simp only [update_feature_events]; exact hce
    | false => rw [if_neg (by simp)]; exact hce
  have h2n : st2.now = st.now := by
    rw [hst2]
    cases mc with
    | true => rw [if_pos rfl, hcomp]; simp only [update_feature_now]; exact hcn
    | false => rw [if_neg (by simp)]; exact hcn
  have hq1 : ∀ q : String, (∃ p ∈ st.linkedTo, p.2 = q) →
      st1.features.find? (fun f => f.fid == q) =
        st.features.find? (fun f => f.fid == q) := by
    rintro q ⟨p, hp, hpq⟩
    have hqne : q ≠ fid := hpq ▸ hnolinks p hp
    rw [hcf]
    refine list_find_append_single _ _ _ ?_
    apply beq_eq_false_iff_ne.mpr
    rw [hFnewdef]
    simp only [new_feature_record_fid]
    exact fun hx => hqne hx.symm
  have h2f : ∀ q : String, (∃ p ∈ st.linkedTo, p.2 = q) →
      st2.features.find? (fun f => f.fid == q) =
        st.features.find? (fun f => f.fid == q) := by
    rintro q hq
    obtain ⟨p, hp, hpq⟩ := hq
    have hqne : q ≠ fid := hpq ▸ hnolinks p hp
    rw [hst2]
    cases mc with
    | true =>
      rw [if_pos rfl, hcomp]
      show (update_feature st1 fid (complete_tr st1.now)).features.find?
        (fun f => f.fid == q) = _
      have := list_find_update_ne st1.features fid q (complete_tr st1.now)
        (fun _ => rfl) hqne
      rw [show (update_feature st1 fid (complete_tr st1.now)).features =
        st1.features.map (fun f => if f.fid == fid then complete_tr st1.now f
          else f) from rfl]
      rw [this]
      exact hq1 q ⟨p, hp, hpq⟩
    | false =>
      rw [if_neg (by simp)]
      exact hq1 q ⟨p, hp, hpq⟩
  have h2find : ∃ G0, find_feature st2 fid = some G0 ∧ G0.work_count = 0 := by
    rw [hst2]
    cases mc with
    | true =>
      rw [if_pos rfl, hcomp]
      refine ⟨complete_tr st1.now Fnew, ?_, by rw [hFnewdef]; simp [complete_tr]⟩
      show find_feature (update_feature st1 fid (complete_tr st1.now)) fid = _
      rw [find_feature_update_feature st1 fid (complete_tr st1.now)
        (fun _ => rfl), hfind1]
      rfl
    | false =>
      rw [if_neg (by simp)]
      exact ⟨Fnew, hfind1, by rw [hFnewdef]; simp⟩
  obtain ⟨G0, hG0, hG0wc⟩ := h2find
  have helig : eligible_rows st2 pd lookback = eligible_rows st pd lookback :=
    eligible_rows_congr st2 st pd lookback h2l h2e h2n h2f
  have hevents2 : ∀ e ∈ eligible_rows st2 pd lookback,
      st2.events.any (fun ev => ev.eid == e) = true :=
    eligible_rows_events st2 pd lookback
  have hre := reattribute_spec st2 pd fid lookback G0 hG0 hevents2
  have hd1 : (discover_feature st pd fid desc cat steps priority lookback mc
      bh wt).1.reattributed_events =
      (reattribute_session_work_events st2 pd fid lookback).1 := rfl
  have hd2 : (discover_feature st pd fid desc cat steps priority lookback mc
      bh wt).2 =
      (reattribute_session_work_events st2 pd fid lookback).2 := rfl
  refine ⟨?_, ?_, ?_, ?_⟩
  · rw [hd1, hre.1, helig]
  · intro e he
    rw [hd2]
    exact hre.2.2.1 e (by rw [helig]; exact he)
  · intro p hp
    rw [hd2]
    exact hre.2.1 p (by rw [h2l]; exact hp)
  · obtain ⟨G, hG, hGwc⟩ := hre.2.2.2
    refine ⟨G, ?_, ?_⟩
    · rw [hd2]; exact hG
    · rw [hGwc, hG0wc, helig]
      simp

/-- Claim C4 (amended): the sequence create_feature(pending) → start_feature
→ complete_feature performs the status transitions directly on the Feature
node and emits NO StatusEvent at all (the audit trail stays untouched);
complete_feature does clear the claim triple and timestamp completed_at, and
start_feature does install the caller's claim.  StatusEvents are only ever
written by the automatic pending→in_progress transition on first linked
activity. -/
theorem C4_no_status_events (st : GraphState) (project_dir fid desc cat : String)
    (agent : Option String) (sid : String) (priority : Int)
    (bh : Option String) (fps : List String) (wtype : String)
    (hfresh : find_feature st fid = none)
    (hs : (sid == "") = false) :
    ((complete_feature (start_feature (create_feature st project_dir fid desc
        cat [] priority false bh fps wtype).2 fid agent (some sid)
        false).2 fid).2.statusEvents = st.statusEvents) ∧
    (∃ f, find_feature (complete_feature (start_feature (create_feature st
        project_dir fid desc cat [] priority false bh fps wtype).2 fid agent
        (some sid) false).2 fid).2 fid = some f ∧
      f.status = "complete" ∧ f.claiming_session_id = none ∧
      f.claiming_agent = none ∧ f.claimed_at = none ∧
      f.completed_at = some st.now) := by
  set st1 := (create_feature st project_dir fid desc cat [] priority false bh
    fps wtype).2 with hst1
  have hnow1 : st1.now = st.now := by
    rw [hst1]; unfold create_feature; simp
  have hse1 : st1.statusEvents = st.statusEvents := by
    rw [hst1]; unfold create_feature; simp
  obtain ⟨Fnew, hF1, hFnew⟩ : ∃ Fnew, find_feature st1 fid = some Fnew ∧
      Fnew.claiming_session_id = none := by
    rw [hst1]
    unfold create_feature find_feature
    simp only []
    rw [list_find_append_none _ _ _ (by
      have := hfresh
      unfold find_feature at this
      simpa using this)]
    simp [List.find?_cons]
  set st2 := (start_feature st1 fid agent (some sid) false).2 with hst2
  have hclaim : get_feature_claim st1 fid = none := by
    unfold get_feature_claim
    rw [hF1]
    simp [hFnew]
  have hw2 : start_feature st1 fid agent (some sid) false =
      (some (start_tr agent sid st1.now Fnew),
       update_feature st1 fid (start_tr agent sid st1.now)) := by
    unfold start_feature
    rw [hclaim]
    simp only [hs, Bool.false_eq_true, if_false]
    unfold start_feature_write
    rw [hF1]
  have hf2 : find_feature st2 fid = some (start_tr agent sid st1.now Fnew) := by
    rw [hst2, hw2]
    show find_feature (update_feature st1 fid (start_tr agent sid st1.now))
      fid = _
    rw [find_feature_update_feature st1 fid (start_tr agent sid st1.now)
      (fun _ => rfl), hF1]
    rfl
  have hse2 : st2.statusEvents = st1.statusEvents := by
    rw [hst2, hw2]
    show (update_feature st1 fid (start_tr agent sid st1.now)).statusEvents = _
    simp
  have hnow2 : st2.now = st.now := by
    rw [hst2, hw2]
    show (update_feature st1 fid (start_tr agent sid st1.now)).now = _
    rw [update_feature_now, hnow1]
  have hw3 : complete_feature st2 fid =
      (some (complete_tr st2.now (start_tr agent sid st1.now Fnew)),
       update_feature st2 fid (complete_tr st2.now)) := by
    unfold complete_feature
    rw [hf2]
  constructor
  · rw [hw3]
    show (update_feature st2 fid (complete_tr st2.now)).statusEvents = _
    rw [update_feature_statusEvents, hse2, hse1]
  · refine ⟨complete_tr st2.now (start_tr agent sid st1.now Fnew), ?_,
      rfl, rfl, rfl, rfl, ?_⟩
    · rw [hw3]
      show find_feature (update_feature st2 fid (complete_tr st2.now)) fid = _
      rw [find_feature_update_feature st2 fid (complete_tr st2.now)
        (fun _ => rfl), hf2]
      rfl
    · show some st2.now = some st.now
      rw [hnow2]

/-- C1 scenario: feature FW claimed by the still-active session S1. -/
def w1_feature : Feature :=
  { base_feature with fid := "FW", status := "in_progress",
                      claiming_session_id := some "S1",
                      claiming_agent := some "A1", claimed_at := some 900 }

def st_w1 : GraphState :=
  { empty_state with features := [w1_feature], sessions := [base_session] }

/-- C6 scenario's active feature, named. -/
def w6_feature : Feature :=
  { base_feature with fid := "F6", status := "in_progress",
                      is_primary := true }

/-- C10 scenario: two in_progress features, none primary, priorities 1, 5. -/
def w10_low : Feature :=
  { base_feature with fid := "W10a", status := "in_progress", priority := 1 }

def w10_high : Feature :=
  { base_feature with fid := "W10b", status := "in_progress", priority := 5 }

def st_w10 : GraphState :=
  { empty_state with features := [w10_low, w10_high],
                     sessions := [base_session] }

/-- Witness for C1: in st_w1 the claim ("S1", "A1", 900) is live, S1 is
active, and start_feature from session S2 is refused without mutation. -/
theorem C1_witness :
    get_feature_claim st_w1 "FW" = some ("S1", some "A1", some 900) ∧
    (("S1" : String) == "S2") = false ∧
    (("S2" : String) == "") = false ∧
    is_session_active st_w1 "S1" 30 = true ∧
    start_feature st_w1 "FW" (some "A2") (some "S2") false = (none, st_w1) :=
  ⟨by decide, by decide, by decide, by decide,
   (C1_start_feature_claim_arbitration st_w1 "FW" (some "A2") "S2"
     ("S1", some "A1", some 900) (by decide) (by decide) (by decide)).1
     (by decide)⟩

/-- Witness for C2: an Edit PostToolUse with no active feature leaves the
feature list and LINKED_TO edges unchanged. -/
theorem C2_witness :
    (("Edit" : String) == "TodoWrite") = false ∧
    skip_tracking ti_edit = false ∧
    is_mcp_meta_tool "Edit" = false ∧
    is_diagnostic_command "Edit" ti_edit = false ∧
    get_active_feature st_c2 "/p" = none ∧
    ((handle_post_tool_use st_c2 "Edit" ti_edit tool_ok "tu1" "sw1" "e1" "/p"
        "S1").features = st_c2.features ∧
      (handle_post_tool_use st_c2 "Edit" ti_edit tool_ok "tu1" "sw1" "e1" "/p"
        "S1").linkedTo = st_c2.linkedTo) :=
  ⟨by decide, by decide, by decide, by decide, by decide,
   C2_no_session_work_fallback st_c2 "Edit" ti_edit tool_ok "tu1" "sw1" "e1"
     "/p" "S1" (by decide) (by decide) (by decide) (by decide) (by decide)⟩

/-- Witness for C4: the create → start → complete life-cycle on the empty
graph emits no StatusEvent. -/
theorem C4_witness :
    find_feature empty_state "F4" = none ∧
    (("S1" : String) == "") = false ∧
    (complete_feature (start_feature (create_feature empty_state "/p" "F4"
        "d" "functional" [] 0 false none [] "feature").2 "F4" (some "A1")
        (some "S1") false).2 "F4").2.statusEvents =
      empty_state.statusEvents :=
  ⟨by decide, by decide,
   (C4_no_status_events empty_state "/p" "F4" "d" "functional" (some "A1")
     "S1" 0 none [] "feature" (by decide) (by decide)).1⟩

/-- Witness for C5: graph-side discover on st_c5 reports exactly the
eligible-row count as reattributed_events. -/
theorem C5_witness :
    find_feature st_c5 "NF2" = none ∧
    (discover_feature st_c5 "/p" "NF2" "d" "functional" [] 0 60 false none
        "feature").1.reattributed_events =
      ((eligible_rows st_c5 "/p" 60).length : Int) :=
  ⟨by decide,
   (C5_graph_discover_reattributes st_c5 "/p" "NF2" "d" "functional" [] 0 60
     false none "feature" (by decide) (by decide)).1⟩

/-- Witness for C6: a successful Edit on st_c6 links the event to F6. -/
theorem C6_witness :
    get_active_feature st_c6 "/p" = some w6_feature ∧
    find_feature st_c6 w6_feature.fid = some w6_feature ∧
    (handle_post_tool_use st_c6 "Edit" ti_edit tool_ok "tu1" "sw1" "e1" "/p"
        "S1").linkedTo = st_c6.linkedTo ++ [("tu1", w6_feature.fid)] :=
  ⟨by decide, by decide,
   (C6_work_count_increment st_c6 "Edit" ti_edit tool_ok "tu1" "sw1" "e1"
     "/p" "S1" w6_feature (by decide) (by decide) (by decide) (by decide)
     (by decide) (by decide) (by decide)).1⟩

/-- Witness for C8: set_plan on F8 with two descriptions yields step orders
0, 1 in description order. -/
theorem C8_witness :
    (find_feature st_c8 "F8").isSome = true ∧
    ((Cli.set_plan st_c8 "F8" ["a", "b"]).2.steps.filter
        (fun s => s.feature_id == "F8")).map (fun s => s.step_order) =
      List.range (["a", "b"].length) :=
  ⟨by decide, (C8_set_plan_orders st_c8 "F8" ["a", "b"] (by decide)).1⟩

/-- Witness for C9: in st_c9, m is an ancestor of a, so re-parenting m under
a is rejected as a circular dependency and the graph is unchanged. -/
theorem C9_witness :
    (Cli.get_ancestors st_c9 "a").contains "m" = true ∧
    (∃ e, Cli.link_to_parent st_c9 "m" "a" = (Except.error e, st_c9)) :=
  ⟨by decide,
   C9_link_to_parent_rejects_cycles st_c9 "m" "a" (Or.inr (by decide))⟩

/-- Witness for C10: a plain Edit event on st_w10 is attributed to the
get_active_feature choice without touching the graph. -/
theorem C10_witness :
    is_mcp_meta_tool "Edit" = false ∧
    is_diagnostic_command "Edit" ti_edit = false ∧
    get_active_feature st_w10 "/p" = some w10_high ∧
    selected_feature st_w10 "Edit" ti_edit "/p" "sw1" =
      (get_active_feature st_w10 "/p", st_w10) :=
  ⟨by decide, by decide, by decide,
   (C10_attribution st_w10 "Edit" ti_edit "/p" "sw1" (by decide)
     (by decide)).1⟩

end Ijoka
